import Mathlib

/-!
# Verification of the fracPy wavefield propagation operators

Shallow embedding of `fracPy/Operators/Operators.py`: square complex field
grids, the centered orthonormal 2-D discrete Fourier transform (the `fft2c` /
`ifft2c` helpers of `fracPy.utils.utils`, which are modelled from the spec
since that file is not part of the sources), the seven propagator models,
their kernel factories, the string-keyed dispatch layer, and the
least-recently-used kernel cache.

Machine floating point is modelled by exact real/complex arithmetic.
-/

open Complex ZMod Finset

noncomputable section

/-- A square `n × n` complex field, indexed by `ZMod n` as (row, column). -/
abbrev Grid (n : ℕ) := ZMod n → ZMod n → ℂ

/-- A multi-wavelength field: one `n × n` grid per wavelength index.
The trivial object-mode, probe-mode and slice axes of the 6-D numpy arrays are
dropped: every kernel built by the factories is constant along them. -/
abbrev PField (nl n : ℕ) := Fin nl → Grid n

variable {n nl : ℕ}

/-- Unnormalised-phase 2-D DFT with the standard additive character
`x ↦ exp (-2πi·x·k/n)` and the `numpy` `norm='ortho'` scaling `1/n`
(`1/sqrt n` per axis). -/
def fft2 [NeZero n] (u : Grid n) : Grid n := fun k l =>
  (n : ℂ)⁻¹ * ∑ x : ZMod n, ∑ y : ZMod n, u x y * stdAddChar (-(x * k + y * l))

/-- Inverse 2-D DFT, `norm='ortho'` scaling. -/
def ifft2 [NeZero n] (u : Grid n) : Grid n := fun k l =>
  (n : ℂ)⁻¹ * ∑ x : ZMod n, ∑ y : ZMod n, u x y * stdAddChar (x * k + y * l)

/-- `np.fft.fftshift` on both axes: moves the zero-frequency sample to the
centre index `n/2`. -/
def fftshift2 (u : Grid n) : Grid n := fun i j =>
  u (i - ((n / 2 : ℕ) : ZMod n)) (j - ((n / 2 : ℕ) : ZMod n))

/-- `np.fft.ifftshift` on both axes, the inverse of `fftshift2`. -/
def ifftshift2 (u : Grid n) : Grid n := fun i j =>
  u (i + ((n / 2 : ℕ) : ZMod n)) (j + ((n / 2 : ℕ) : ZMod n))

/-- Modelled from the spec: `fracPy.utils.utils.fft2c` (the file is not among
the sources).  Per the spec it is the plain orthonormal FFT with a configurable
shift convention: with `fftshiftSwitch = False` (the default) data are stored
centred, so the transform is `fftshift ∘ fft2 ∘ ifftshift`; with the switch
enabled the data are kept pre-shifted and the raw transform is used. -/
def fft2c [NeZero n] (u : Grid n) (fftshiftSwitch : Bool) : Grid n :=
  if fftshiftSwitch then fft2 u else fftshift2 (fft2 (ifftshift2 u))

/-- Modelled from the spec: `fracPy.utils.utils.ifft2c`, inverse of `fft2c`
under the same shift convention. -/
def ifft2c [NeZero n] (u : Grid n) (fftshiftSwitch : Bool) : Grid n :=
  if fftshiftSwitch then ifft2 u else fftshift2 (ifft2 (ifftshift2 u))

/-- `fft2c` applied to the last two axes of a multi-wavelength field. -/
def fft2cF [NeZero n] (u : PField nl n) (b : Bool) : PField nl n := fun l => fft2c (u l) b

/-- `ifft2c` applied to the last two axes of a multi-wavelength field. -/
def ifft2cF [NeZero n] (u : PField nl n) (b : Bool) : PField nl n := fun l => ifft2c (u l) b

/-- Broadcast a single grid along the wavelength axis (numpy broadcasting of a
`(1, …, Np, Np)` kernel against a `(nlambda, …, Np, Np)` field). -/
def bcast (g : Grid n) : PField nl n := fun _ => g

/-- Modelled from the spec: `fracPy.utils.utils.circ` (file not among the
sources).  Per the spec it is the indicator of a circular window of diameter
`D`: `1` where `X² + Y² < (D/2)²`, `0` outside. -/
def circ (X Y D : ℝ) : ℝ := if X ^ 2 + Y ^ 2 < (D / 2) ^ 2 then 1 else 0

/-- The spatial-frequency coordinate `np.arange(-N/2, N/2)[j] / L` used by
`aspw` (float `arange`, so entry `j` is `(j - N/2) / L`). -/
def coordA (n : ℕ) (L : ℝ) (j : ZMod n) : ℝ := ((j.val : ℝ) - (n : ℝ) / 2) / L

/-- Band-limit radius `f_max = L/(λ·sqrt(L²+4z²))` of `aspw`. -/
def aspw_fmax (z wavelength L : ℝ) : ℝ :=
  L / (wavelength * Real.sqrt (L ^ 2 + 4 * z ^ 2))

/-- The exponent `1 - (Fx·λ)² - (Fy·λ)²` at entry `(i, j)` of the `aspw`
frequency grid (`Fx` varies along columns, `Fy` along rows, per `meshgrid`). -/
def aspw_exponent (n : ℕ) (wavelength L : ℝ) (i j : ZMod n) : ℝ :=
  1 - (coordA n L j * wavelength) ^ 2 - (coordA n L i * wavelength) ^ 2

/-- The transfer factor `H = mask * exp(1j*k*z*np.sqrt(exponent))` computed by
`aspw`.  NOTE: the source clips the boolean `mask` instead of `exponent`
(`exponent = xp.clip(mask, 0, None)`), so the square-root argument is the 0/1
indicator, not the clipped exponent; this is embedded faithfully. -/
def aspw_H (n : ℕ) (z wavelength L : ℝ) : Grid n := fun i j =>
  ((if 0 < aspw_exponent n wavelength L i j then (1 : ℝ) else 0) : ℂ) *
    Complex.exp (Complex.I *
      ((2 * Real.pi / wavelength) * z *
        Real.sqrt (if 0 < aspw_exponent n wavelength L i j then (1 : ℝ) else 0) : ℝ))

/-- The band-limit window `W = circ(Fx, Fy, 2*f_max)` of `aspw`. -/
def aspw_W (n : ℕ) (z wavelength L : ℝ) : Grid n := fun i j =>
  ((circ (coordA n L j) (coordA n L i) (2 * aspw_fmax z wavelength L) : ℝ) : ℂ)

/-- The band-limited transfer function `H*W` returned by `aspw` (second
component of its result). -/
def aspwKernel (n : ℕ) (z wavelength L : ℝ) : Grid n := fun i j =>
  aspw_H n z wavelength L i j * aspw_W n z wavelength L i j

/-- `aspw`: band-limited angular-spectrum propagation of a single grid,
returning the propagated field and the transfer function `H*W`. -/
def aspw [NeZero n] (u : Grid n) (z wavelength L : ℝ) : Grid n × Grid n :=
  (ifft2c (fft2c u false * aspwKernel n z wavelength L) false,
    aspwKernel n z wavelength L)

/-- What the spec's formula for the `aspw` transfer function says:
`H = mask · exp(i·k·z·sqrt(1 − (λFx)² − (λFy)²))` (square root of the actual
exponent, which the mask keeps nonnegative), times the same window `W`.
This follows the spec's words, for comparison against `aspwKernel`. -/
def aspwKernelSpec (n : ℕ) (z wavelength L : ℝ) : Grid n := fun i j =>
  ((if 0 < aspw_exponent n wavelength L i j then (1 : ℝ) else 0) : ℂ) *
    Complex.exp (Complex.I *
      ((2 * Real.pi / wavelength) * z *
        Real.sqrt (aspw_exponent n wavelength L i j) : ℝ)) *
    aspw_W n z wavelength L i j

/-- Entry `j` of `np.linspace(-Np/2, Np/2, Np) * dxp` (endpoint included, step
`Np/(Np-1)`; for `Np = 1` numpy returns the single start point, matching the
real-division convention `x/0 = 0` used here). -/
def linspaceP (n : ℕ) (dxp : ℝ) (j : ZMod n) : ℝ :=
  (-(n : ℝ) / 2 + (j.val : ℝ) * ((n : ℝ) / ((n : ℝ) - 1))) * dxp

/-- `__make_quad_phase(zo, wavelength, Np, dxp, on_gpu)` without the cache:
the quadratic phase `exp(1j·π/(λ·zo)·(Xp²+Yp²))` on the linspace grid.
The device flag only selects the array backend and does not change values. -/
def make_quad_phase (n : ℕ) (zo wavelength dxp : ℝ) : Grid n := fun i j =>
  Complex.exp (Complex.I *
    (Real.pi / (wavelength * zo) *
      ((linspaceP n dxp j) ^ 2 + (linspaceP n dxp i) ^ 2) : ℝ))

/-- Entry `j` of `np.arange(-N // 2, N // 2)[j] * dx` used by the `scaledASP`
source-plane grid.  Python parses `-N // 2` as `(-N) // 2 = -⌈N/2⌉` (floor
division of the negated value), so entry `j` is `(j - ⌈N/2⌉)·dx`; for odd `N`
the grid reaches one sample further on the negative side (e.g. `[-2,-1,0]`
for `N = 3`). -/
def coordX (n : ℕ) (dx : ℝ) (j : ZMod n) : ℝ :=
  ((j.val : ℝ) - (((n + 1) / 2 : ℕ) : ℝ)) * dx

/-- Entry `j` of `np.arange(-N // 2, N // 2)[j] / (N*dx)`: the `scaledASP`
source-plane spatial frequencies, with the same `(-N) // 2 = -⌈N/2⌉` start as
`coordX`. -/
def coordFr (n : ℕ) (dx : ℝ) (j : ZMod n) : ℝ :=
  ((j.val : ℝ) - (((n + 1) / 2 : ℕ) : ℝ)) / ((n : ℝ) * dx)

/-- `Q1` of `scaledASP(u, z, wavelength, dx, dq, bandlimit=True)`:
`exp(1j·k/2·(1-m)/z·r1sq)` times the window `circ(X1, Y1, 2*r1sq_max)` with
`r1sq_max = λ·z/(2·dx·(1-m))`.  The guard `m is not 1` in the source compares
a float with the int literal `1` by identity and is therefore always true, so
the window is always applied; at `m = 1` the float radius is infinite (IEEE
division of a nonzero numerator by zero) and the window then passes every
sample, which the `1 - m = 0` branch models (Lean's `x / 0 = 0` would
otherwise close the window instead). -/
def scaledASP_Q1 (n : ℕ) (z wavelength dx dq : ℝ) : Grid n := fun i j =>
  Complex.exp (Complex.I *
      ((2 * Real.pi / wavelength) / 2 * ((1 - dq / dx) / z) *
        ((coordX n dx j) ^ 2 + (coordX n dx i) ^ 2) : ℝ)) *
    ((if 1 - dq / dx = 0 then 1 else
        circ (coordX n dx j) (coordX n dx i)
          (2 * (wavelength * z / (2 * dx * (1 - dq / dx)))) : ℝ) : ℂ)

/-- `Q2` of `scaledASP`: `exp(-1j·π²·2·z/m/k·fsq)` times the window
`circ(FX, FY, 2*fsq_max)` with `fsq_max = m/(2·z·λ·(1/(N·dx)))`. -/
def scaledASP_Q2 (n : ℕ) (z wavelength dx dq : ℝ) : Grid n := fun i j =>
  Complex.exp (-Complex.I *
      (Real.pi ^ 2 * 2 * z / (dq / dx) / (2 * Real.pi / wavelength) *
        ((coordFr n dx j) ^ 2 + (coordFr n dx i) ^ 2) : ℝ)) *
    ((circ (coordFr n dx j) (coordFr n dx i)
        (2 * ((dq / dx) / (2 * z * wavelength * (1 / ((n : ℝ) * dx))))) : ℝ) : ℂ)

/-- The configuration consumed by the propagators (`fracPy.Params`). -/
structure Params where
  propagatorType : String
  fftshiftSwitch : Bool
  gpuSwitch : Bool

/-- The reconstruction state consumed by the propagators.  The grid size `Np`
is the type index `n` and the wavelength count `nlambda` is the type index
`nl`; `spectralDensity` models the per-wavelength tuple (indexed by `ℕ`). -/
structure Reconstruction (nl n : ℕ) where
  esw : PField nl n
  ESW : PField nl n
  zo : ℝ
  wavelength : ℝ
  Lp : ℝ
  dxp : ℝ
  dxo : ℝ
  dxd : ℝ
  nosm : ℕ
  npsm : ℕ
  spectralDensity : ℕ → ℝ

/-- `__make_transferfunction_ASP` (cache elided; the kernel is a deterministic
function of the key).  The kernel is `aspw(ones, zo, wavelength, Lp)[1]`,
identical for every object/probe mode, so the mode axes are dropped. -/
def make_transferfunction_ASP (fftshiftSwitch : Bool) (nosm npsm : ℕ) (n : ℕ)
    (zo wavelength Lp : ℝ) (nlambda : ℕ) (on_gpu : Bool) :
    Except String (Grid n) :=
  if fftshiftSwitch then
    .error "ASP propagatorType works only with fftshiftSwitch = False!"
  else if 1 < nlambda then
    .error "For multi-wavelength, polychromeASP needs to be used instead of ASP"
  else
    .ok (aspwKernel n zo wavelength Lp)

/-- `__make_transferfunction_polychrome_ASP`: one `aspw` kernel per entry of
the spectral density (the `wavelength` argument is received but unused). -/
def make_transferfunction_polychrome_ASP (propagatorType : Option String)
    (fftshiftSwitch : Bool) (nosm npsm : ℕ) (n : ℕ) (zo wavelength Lp : ℝ)
    (nlambda : ℕ) (spectralDensity : ℕ → ℝ) (gpuSwitch : Bool) :
    Except String (PField nlambda n) :=
  if fftshiftSwitch then
    .error "ASP propagatorType works only with fftshiftSwitch = False!"
  else
    .ok (fun l => aspwKernel n zo (spectralDensity l.val) Lp)

/-- `__make_transferfunction_scaledASP`: the `Q1`, `Q2` pair of
`scaledASP(ones, zo, wavelength, dxo, dxd)` (bandlimit on by default). -/
def make_transferfunction_scaledASP (propagatorType : Option String)
    (fftshiftSwitch : Bool) (nlambda nosm npsm : ℕ) (n : ℕ)
    (zo wavelength dxo dxd : ℝ) (gpuSwitch : Bool) :
    Except String (Grid n × Grid n) :=
  if fftshiftSwitch then
    .error "scaledASP propagatorType works only with fftshiftSwitch = False!"
  else if 1 < nlambda then
    .error "For multi-wavelength, scaledPolychromeASP needs to be used instead of scaledASP"
  else
    .ok (scaledASP_Q1 n zo wavelength dxo dxd, scaledASP_Q2 n zo wavelength dxo dxd)

/-- `__make_transferfunction_scaledPolychromeASP`: per wavelength, the
`scaledASP` factors at that wavelength (the single-wavelength factory is
called with `nlambda = 1` and `propagatorType = None`, so it cannot raise
once the shift guard has passed). -/
def make_transferfunction_scaledPolychromeASP (fftshiftSwitch : Bool)
    (nlambda nosm npsm : ℕ) (zo : ℝ) (n : ℕ) (spectralDensity : ℕ → ℝ)
    (dxo dxd : ℝ) (on_gpu : Bool) :
    Except String (PField nlambda n × PField nlambda n) :=
  if fftshiftSwitch then
    .error "scaledPolychromeASP propagatorType works only with fftshiftSwitch = False!"
  else
    .ok (fun l => scaledASP_Q1 n zo (spectralDensity l.val) dxo dxd,
         fun l => scaledASP_Q2 n zo (spectralDensity l.val) dxo dxd)

/-- `__make_cache_twoStepPolychrome`: per wavelength an `aspw` kernel at the
distance fraction `zo·(1 − sd[0]/sd[λ])`, plus the quadratic phase at the
first wavelength. -/
def make_cache_twoStepPolychrome (fftshiftSwitch : Bool)
    (nlambda nosm npsm : ℕ) (n : ℕ) (zo : ℝ) (spectralDensity : ℕ → ℝ)
    (Lp dxp : ℝ) (on_gpu : Bool) :
    Except String (PField nlambda n × Grid n) :=
  if fftshiftSwitch then
    .error "twoStepPolychrome propagatorType works only with fftshiftSwitch = False!"
  else
    .ok (fun l => aspwKernel n (zo * (1 - spectralDensity 0 / spectralDensity l.val))
           (spectralDensity l.val) Lp,
         make_quad_phase n zo (spectralDensity 0) dxp)

variable [NeZero n]

/-- `propagate_fraunhofer`. -/
def propagate_fraunhofer (fields : PField nl n) (params : Params)
    (reconstruction : Reconstruction nl n) (z : Option ℝ := none) :
    Except String (PField nl n × PField nl n) :=
  .ok (reconstruction.esw, fft2cF fields params.fftshiftSwitch)

/-- `propagate_fraunhofer_inv`. -/
def propagate_fraunhofer_inv (fields : PField nl n) (params : Params)
    (reconstruction : Reconstruction nl n) (z : Option ℝ := none) :
    Except String (PField nl n × PField nl n) :=
  .ok (reconstruction.esw, ifft2cF fields params.fftshiftSwitch)

/-- `propagate_fresnel`: the quadratic phase is keyed on the field's own last
dimension (`fields.shape[-1] = n`). -/
def propagate_fresnel (fields : PField nl n) (params : Params)
    (reconstruction : Reconstruction nl n) (z : Option ℝ := none) :
    Except String (PField nl n × PField nl n) :=
  let z' := z.getD reconstruction.zo
  let quadratic_phase := make_quad_phase n z' reconstruction.wavelength reconstruction.dxp
  .ok (reconstruction.esw, fft2cF (fields * bcast quadratic_phase) params.fftshiftSwitch)

/-- `propagate_fresnel_inv`: the quadratic phase is keyed on
`reconstruction.Np` (also `n` here). -/
def propagate_fresnel_inv (fields : PField nl n) (params : Params)
    (reconstruction : Reconstruction nl n) (z : Option ℝ := none) :
    Except String (PField nl n × PField nl n) :=
  let z' := z.getD reconstruction.zo
  let quadratic_phase := make_quad_phase n z' reconstruction.wavelength reconstruction.dxp
  .ok (reconstruction.esw,
    ifft2cF fields params.fftshiftSwitch * bcast (star quadratic_phase))

/-- `propagate_ASP`. -/
def propagate_ASP (fields : PField nl n) (params : Params)
    (reconstruction : Reconstruction nl n) (inverse : Bool := false)
    (z : Option ℝ := none) : Except String (PField nl n × PField nl n) :=
  if params.fftshiftSwitch then
    .error "ASP propagator only works with fftshiftswitch == False"
  else if 1 < nl then
    .error "For multi-wavelength, set polychromeASP instead of ASP"
  else
    let z' := z.getD reconstruction.zo
    (make_transferfunction_ASP params.fftshiftSwitch reconstruction.nosm
        reconstruction.npsm n z' reconstruction.wavelength reconstruction.Lp nl
        params.gpuSwitch).map fun tf =>
      let tf' := if inverse then star (bcast tf : PField nl n) else bcast tf
      (reconstruction.esw, ifft2cF (fft2cF fields false * tf') false)

/-- `propagate_ASP_inv`. -/
def propagate_ASP_inv (fields : PField nl n) (params : Params)
    (reconstruction : Reconstruction nl n) (z : Option ℝ := none) :
    Except String (PField nl n × PField nl n) :=
  propagate_ASP fields params reconstruction true z

/-- `propagate_polychromeASP`. -/
def propagate_polychromeASP (fields : PField nl n) (params : Params)
    (reconstruction : Reconstruction nl n) (inverse : Bool := false)
    (z : Option ℝ := none) : Except String (PField nl n × PField nl n) :=
  let z' := z.getD reconstruction.zo
  (make_transferfunction_polychrome_ASP (some params.propagatorType)
      params.fftshiftSwitch reconstruction.nosm reconstruction.npsm n z'
      reconstruction.wavelength reconstruction.Lp nl
      reconstruction.spectralDensity params.gpuSwitch).map fun tf =>
    let tf' := if inverse then star tf else tf
    (reconstruction.esw, ifft2cF (fft2cF fields false * tf') false)

/-- `propagate_polychromeASP_inv`. -/
def propagate_polychromeASP_inv (fields : PField nl n) (params : Params)
    (reconstruction : Reconstruction nl n) (z : Option ℝ := none) :
    Except String (PField nl n × PField nl n) :=
  propagate_polychromeASP fields params reconstruction true z

/-- `propagate_scaledASP`: forward `ifft2c(fft2c(fields*Q1)*Q2)`, inverse
`ifft2c(fft2c(fields)*conj(Q2))*conj(Q1)`. -/
def propagate_scaledASP (fields : PField nl n) (params : Params)
    (reconstruction : Reconstruction nl n) (inverse : Bool := false)
    (z : Option ℝ := none) : Except String (PField nl n × PField nl n) :=
  let z' := z.getD reconstruction.zo
  (make_transferfunction_scaledASP (some params.propagatorType)
      params.fftshiftSwitch nl reconstruction.nosm reconstruction.npsm n z'
      reconstruction.wavelength reconstruction.dxo reconstruction.dxd
      params.gpuSwitch).map fun Q =>
    let Q1 : PField nl n := bcast Q.1
    let Q2 : PField nl n := bcast Q.2
    if inverse then
      (reconstruction.esw, ifft2cF (fft2cF fields false * star Q2) false * star Q1)
    else
      (reconstruction.esw, ifft2cF (fft2cF (fields * Q1) false * Q2) false)

/-- `propagate_scaledASP_inv`. -/
def propagate_scaledASP_inv (fields : PField nl n) (params : Params)
    (reconstruction : Reconstruction nl n) (z : Option ℝ := none) :
    Except String (PField nl n × PField nl n) :=
  propagate_scaledASP fields params reconstruction true z

/-- `propagate_scaledPolychromeASP`.  NOTE, embedded faithfully from the
source: the factory receives `reconstruction.dxp` where its parameter is named
`dxd`, and the inverse branch multiplies `conj(Q1)` inside the frequency
domain and `conj(Q2)` outside — the mirror image of `propagate_scaledASP`. -/
def propagate_scaledPolychromeASP (fields : PField nl n) (params : Params)
    (reconstruction : Reconstruction nl n) (inverse : Bool := false)
    (z : Option ℝ := none) : Except String (PField nl n × PField nl n) :=
  let z' := z.getD reconstruction.zo
  (make_transferfunction_scaledPolychromeASP params.fftshiftSwitch nl
      reconstruction.nosm reconstruction.npsm z' n
      reconstruction.spectralDensity reconstruction.dxo reconstruction.dxp
      params.gpuSwitch).map fun Q =>
    if inverse then
      (reconstruction.esw, ifft2cF (fft2cF fields false * star Q.1) false * star Q.2)
    else
      (reconstruction.esw, ifft2cF (fft2cF (fields * Q.1) false * Q.2) false)

/-- `propagate_scaledPolychromeASP_inv`. -/
def propagate_scaledPolychromeASP_inv (fields : PField nl n) (params : Params)
    (reconstruction : Reconstruction nl n) (z : Option ℝ := none) :
    Except String (PField nl n × PField nl n) :=
  propagate_scaledPolychromeASP fields params reconstruction true z

/-- `propagate_twoStepPolychrome`. -/
def propagate_twoStepPolychrome (fields : PField nl n) (params : Params)
    (reconstruction : Reconstruction nl n) (inverse : Bool := false)
    (z : Option ℝ := none) : Except String (PField nl n × PField nl n) :=
  let z' := z.getD reconstruction.zo
  (make_cache_twoStepPolychrome params.fftshiftSwitch nl reconstruction.nosm
      reconstruction.npsm n z' reconstruction.spectralDensity reconstruction.Lp
      reconstruction.dxp params.gpuSwitch).map fun tq =>
    let transfer_function := tq.1
    let quadratic_phase : PField nl n := bcast tq.2
    if inverse then
      (reconstruction.esw,
        ifft2cF (fft2cF (fields * star quadratic_phase) false * star transfer_function) false)
    else
      (reconstruction.esw,
        fft2cF (ifft2cF (fft2cF fields false * transfer_function) false * quadratic_phase)
          params.fftshiftSwitch)

/-- `propagate_twoStepPolychrome_inv`: returns `(G, F)` where `F` is the
inverse transform of `fields` and `G` is the inverse transform of
`reconstruction.ESW`. -/
def propagate_twoStepPolychrome_inv (fields : PField nl n) (params : Params)
    (reconstruction : Reconstruction nl n) (z : Option ℝ := none) :
    Except String (PField nl n × PField nl n) :=
  (propagate_twoStepPolychrome fields params reconstruction true z).bind fun Fp =>
    (propagate_twoStepPolychrome reconstruction.ESW params reconstruction
        true z).map fun Gp => (Gp.2, Fp.2)

/-- The `forward_lookup_dictionary` mapping model names to forward
implementations; `none` models a `KeyError` for unsupported names. -/
def forward_lookup_dictionary (s : String) :
    Option (PField nl n → Params → Reconstruction nl n →
      Except String (PField nl n × PField nl n)) :=
  if s = "Fraunhofer" then some (fun f p r => propagate_fraunhofer f p r)
  else if s = "Fresnel" then some (fun f p r => propagate_fresnel f p r)
  else if s = "ASP" then some (fun f p r => propagate_ASP f p r)
  else if s = "polychromeASP" then some (fun f p r => propagate_polychromeASP f p r)
  else if s = "scaledASP" then some (fun f p r => propagate_scaledASP f p r)
  else if s = "scaledPolychromeASP" then
    some (fun f p r => propagate_scaledPolychromeASP f p r)
  else if s = "twoStepPolychrome" then
    some (fun f p r => propagate_twoStepPolychrome f p r)
  else none

/-- The `reverse_lookup_dictionary` mapping model names to inverse
implementations. -/
def reverse_lookup_dictionary (s : String) :
    Option (PField nl n → Params → Reconstruction nl n →
      Except String (PField nl n × PField nl n)) :=
  if s = "Fraunhofer" then some (fun f p r => propagate_fraunhofer_inv f p r)
  else if s = "Fresnel" then some (fun f p r => propagate_fresnel_inv f p r)
  else if s = "ASP" then some (fun f p r => propagate_ASP_inv f p r)
  else if s = "polychromeASP" then some (fun f p r => propagate_polychromeASP_inv f p r)
  else if s = "scaledASP" then some (fun f p r => propagate_scaledASP_inv f p r)
  else if s = "scaledPolychromeASP" then
    some (fun f p r => propagate_scaledPolychromeASP_inv f p r)
  else if s = "twoStepPolychrome" then
    some (fun f p r => propagate_twoStepPolychrome_inv f p r)
  else none

/-- `object2detector`: the propagator is resolved from the model name before
the default field (`reconstruction.esw`) is substituted. -/
def object2detector (fields : Option (PField nl n)) (params : Params)
    (reconstruction : Reconstruction nl n) :
    Except String (PField nl n × PField nl n) :=
  match @forward_lookup_dictionary n nl _ params.propagatorType with
  | none => .error "propagatorType is not in forward_lookup_dictionary"
  | some method => method (fields.getD reconstruction.esw) params reconstruction

/-- `detector2object`: the default field (`reconstruction.ESW`) is substituted
before the propagator is resolved. -/
def detector2object (fields : Option (PField nl n)) (params : Params)
    (reconstruction : Reconstruction nl n) :
    Except String (PField nl n × PField nl n) :=
  let fields' := fields.getD reconstruction.ESW
  match @reverse_lookup_dictionary n nl _ params.propagatorType with
  | none => .error "propagatorType is not in reverse_lookup_dictionary"
  | some method => method fields' params reconstruction

/-- Forward-then-inverse adapter composition
`detector2object(object2detector(u, p)[1], p)[1]`. -/
def roundtrip (params : Params) (reconstruction : Reconstruction nl n)
    (u : PField nl n) : Except String (PField nl n) :=
  (object2detector (some u) params reconstruction).bind fun v =>
    (detector2object (some v.2) params reconstruction).map Prod.snd

/-- `K * star K = 1` pointwise: the kernel has unit modulus everywhere (no
frequency is masked out or band-limited away). -/
def unimodular {α : Type} [Mul α] [One α] [Star α] (K : α) : Prop := K * star K = 1

/-- The propagation call surfaced a configuration error to the caller. -/
def isConfigError {α : Type} (e : Except String α) : Prop := ∃ msg, e = Except.error msg

/-- `cache_size = 10`: how many kernels are kept per propagator type
(`Operators.py`, line 14). -/
def cache_size : ℕ := 10

/-- Modelled from the spec: the documented behaviour of Python's
`functools.lru_cache(maxsize=cap)`, which decorates every kernel factory and
is not itself repository code.  State = association list ordered most recent
first.  A hit returns the stored value (the very object, not a recomputation)
and moves its entry to the front; a miss computes, inserts in front and keeps
at most `cap` entries, dropping the least-recently-used (last) one.  Result:
(value, new state, was it a hit). -/
def lruGet {κ ν : Type} [DecidableEq κ] (cap : ℕ) (f : κ → ν)
    (c : List (κ × ν)) (k : κ) : ν × List (κ × ν) × Bool :=
  match c.find? (fun e => decide (e.1 = k)) with
  | some e => (e.2, (e.1, e.2) :: c.eraseP (fun e' => decide (e'.1 = k)), true)
  | none => (f k, ((k, f k) :: c).take cap, false)

/-- Fold a sequence of requests through the cache, starting empty. -/
def lruRun {κ ν : Type} [DecidableEq κ] (cap : ℕ) (f : κ → ν) (ks : List κ) :
    List (κ × ν) :=
  ks.foldl (fun c k => (lruGet cap f c k).2.1) []

/-- A square array together with its (runtime) size, for the shape-mismatch
analysis: values are indexed by `ℕ` and only the leading `size × size` block
is meaningful. -/
structure SGrid where
  size : ℕ
  val : ℕ → ℕ → ℂ

/-- Entry `j` of `np.linspace(-Np/2, Np/2, Np) * dxp` on bare `ℕ` indices. -/
def linspaceN (Np : ℕ) (dxp : ℝ) (j : ℕ) : ℝ :=
  (-(Np : ℝ) / 2 + (j : ℝ) * ((Np : ℝ) / ((Np : ℝ) - 1))) * dxp

/-- The cache key of `__make_quad_phase`: `(zo, wavelength, Np, dxp, on_gpu)`.
Machine floats have decidable equality; they are modelled by rationals so the
key remains decidable. -/
abbrev QKey : Type := ℚ × ℚ × ℕ × ℚ × Bool

/-- The computation memoised by `__make_quad_phase`: the quadratic phase grid
for a key, sized by the key's `Np` component. -/
def make_quad_phase_entry (k : QKey) : SGrid :=
  ⟨k.2.2.1, fun i j =>
    Complex.exp (Complex.I *
      ((Real.pi / (((k.2.1 : ℝ)) * ((k.1 : ℝ))) *
        ((linspaceN k.2.2.1 (k.2.2.2.1 : ℝ) j) ^ 2 +
         (linspaceN k.2.2.1 (k.2.2.2.1 : ℝ) i) ^ 2)) : ℝ))⟩

/-- The seven supported propagator model names. -/
def supportedPropagators : List String :=
  ["Fraunhofer", "Fresnel", "ASP", "polychromeASP", "scaledASP",
   "scaledPolychromeASP", "twoStepPolychrome"]

/-- The five models whose inverse actually undoes their forward transform
(`scaledPolychromeASP` and `twoStepPolychrome` do not, see C1/C4). -/
def invertiblePropagators : List String :=
  ["Fraunhofer", "Fresnel", "ASP", "polychromeASP", "scaledASP"]

/-- Concrete `Params` selecting the `ASP` model, shift convention off. -/
def pASP : Params := ⟨"ASP", false, false⟩

/-- Concrete `Params` selecting the `Fraunhofer` model, shift convention off. -/
def pFraunhofer : Params := ⟨"Fraunhofer", false, false⟩

/-- Concrete `Params` selecting `twoStepPolychrome`, shift convention off. -/
def pTwoStep : Params := ⟨"twoStepPolychrome", false, false⟩

/-- Concrete `Params` with the shift convention enabled. -/
def pShift : Params := ⟨"ASP", true, false⟩

/-- Concrete `Params` with an unsupported model name. -/
def pBogus : Params := ⟨"banana", false, false⟩

/-- 2×2 single-wavelength state with z = 10 m, λ = 500 nm, Lp = 1 mm:
physically valid far-field parameters under which the `aspw` band-limit
window rejects the non-zero sampled frequencies. -/
def rCex : Reconstruction 1 2 :=
  { esw := 0, ESW := 0, zo := 10, wavelength := 1 / 2000000, Lp := 1 / 1000,
    dxp := 1, dxo := 1, dxd := 1, nosm := 1, npsm := 1,
    spectralDensity := fun _ => 1 / 2000000 }

/-- A 2×2 checkerboard field `[[1, -1], [-1, 1]]`: mean zero, so all its
spectral content sits at the non-zero sampled frequencies. -/
def uCex : PField 1 2 := fun _ x y => if x = y then 1 else -1

/-- 64×64 single-wavelength state matching the spec's concrete scenario:
`z = 0.01`, `wavelength = 500e-9`, `Lp = 1e-3` (and pixel pitches
`dxp = dxo = 1e-5`, `dxd = 1.5e-5` for the scaled model). -/
def rW64 : Reconstruction 1 64 :=
  { esw := 0, ESW := 0, zo := 1 / 100, wavelength := 1 / 2000000,
    Lp := 1 / 1000, dxp := 1 / 100000, dxo := 1 / 100000, dxd := 3 / 200000,
    nosm := 1, npsm := 1, spectralDensity := fun _ => 1 / 2000000 }

/-- Trivial 1×1 single-wavelength state with unit parameters, `esw` the
constant-one field and `ESW` the zero field. -/
def rTriv : Reconstruction 1 1 :=
  { esw := 1, ESW := 0, zo := 1, wavelength := 1, Lp := 1, dxp := 1, dxo := 1,
    dxd := 1, nosm := 1, npsm := 1, spectralDensity := fun _ => 1 }

/-- Trivial two-wavelength 1×1 state (`nlambda = 2`). -/
def rTwoLambda : Reconstruction 2 1 :=
  { esw := 0, ESW := 0, zo := 1, wavelength := 1, Lp := 1, dxp := 1, dxo := 1,
    dxd := 1, nosm := 1, npsm := 1, spectralDensity := fun _ => 1 }

/-- The kernel key of the spec's cache scenario:
`(z=0.01, λ=500e-9, Np=64, dxp=1e-5, device=CPU)`. -/
def qkey64 : QKey := (1 / 100, 1 / 2000000, 64, 1 / 100000, false)

/-- Ten pairwise distinct kernel keys. -/
def tenKeys : List QKey := (List.range 10).map fun i => ((i : ℚ), 0, 0, 0, false)

/-- A full (ten-entry) well-formed cache holding the ten keys above. -/
def fullCache : List (QKey × SGrid) :=
  tenKeys.map fun q => (q, make_quad_phase_entry q)

/-- An eleventh key, distinct from all of `tenKeys`. -/
def keyEleven : QKey := (10, 0, 0, 0, false)

end

/-! ## Theorems -/

section

variable {n nl : ℕ}

/-- Orthogonality of the standard character: `∑ i, χ(t·i)` is `n` when `t = 0`
and `0` otherwise. -/
theorem sum_stdAddChar_mul [NeZero n] (t : ZMod n) :
    ∑ i : ZMod n, stdAddChar (t * i) = if t = 0 then (n : ℂ) else 0 := by
  split_ifs with h
  · simp only [h, zero_mul, AddChar.map_zero_eq_one, Finset.sum_const,
      Finset.card_univ, ZMod.card, nsmul_eq_mul, mul_one]
  · have h0 := AddChar.sum_eq_zero_of_ne_one (isPrimitive_stdAddChar n h)
    simpa only [AddChar.mulShift_apply] using h0

/-- Auxiliary: a double sum of a constant times a product of single-variable
factors splits into the product of the two single sums. -/
theorem sum_sum_factor [NeZero n] (C : ℂ) (A B : ZMod n → ℂ) :
    ∑ k : ZMod n, ∑ l : ZMod n, C * (A k * B l) =
      C * ((∑ k : ZMod n, A k) * (∑ l : ZMod n, B l)) := by
  rw [Finset.sum_mul_sum, Finset.mul_sum]
  exact Finset.sum_congr rfl fun k _ => (Finset.mul_sum _ _ _).symm

/-- Auxiliary: reorder a fourfold nested sum from `(k, l, x, y)` to
`(x, y, k, l)`. -/
theorem sum_reorder [NeZero n] (T : ZMod n → ZMod n → ZMod n → ZMod n → ℂ) :
    ∑ k : ZMod n, ∑ l : ZMod n, ∑ x : ZMod n, ∑ y : ZMod n, T k l x y =
      ∑ x : ZMod n, ∑ y : ZMod n, ∑ k : ZMod n, ∑ l : ZMod n, T k l x y :=
  calc ∑ k : ZMod n, ∑ l : ZMod n, ∑ x : ZMod n, ∑ y : ZMod n, T k l x y
      = ∑ k : ZMod n, ∑ x : ZMod n, ∑ l : ZMod n, ∑ y : ZMod n, T k l x y :=
        Finset.sum_congr rfl fun k _ => Finset.sum_comm
    _ = ∑ x : ZMod n, ∑ k : ZMod n, ∑ l : ZMod n, ∑ y : ZMod n, T k l x y :=
        Finset.sum_comm
    _ = ∑ x : ZMod n, ∑ k : ZMod n, ∑ y : ZMod n, ∑ l : ZMod n, T k l x y :=
        Finset.sum_congr rfl fun x _ =>
          Finset.sum_congr rfl fun k _ => Finset.sum_comm
    _ = ∑ x : ZMod n, ∑ y : ZMod n, ∑ k : ZMod n, ∑ l : ZMod n, T k l x y :=
        Finset.sum_congr rfl fun x _ => Finset.sum_comm

/-- Fourier inversion for the embedded 2-D DFT: `ifft2 ∘ fft2 = id`. -/
theorem ifft2_fft2 [NeZero n] (u : Grid n) : ifft2 (fft2 u) = u := by
  funext a b
  have hn : (n : ℂ) ≠ 0 := Nat.cast_ne_zero.mpr (NeZero.ne n)
  have h1 : ∀ k l : ZMod n,
      fft2 u k l * stdAddChar (k * a + l * b) =
        (n : ℂ)⁻¹ * ∑ x : ZMod n, ∑ y : ZMod n,
          u x y * (stdAddChar ((a - x) * k) * stdAddChar ((b - y) * l)) := by
    intro k l
    simp only [fft2]
    rw [mul_assoc]
    congr 1
    rw [Finset.sum_mul]
    refine Finset.sum_congr rfl fun x _ => ?_
    rw [Finset.sum_mul]
    refine Finset.sum_congr rfl fun y _ => ?_
    rw [mul_assoc]
    congr 1
    rw [← AddChar.map_add_eq_mul, ← AddChar.map_add_eq_mul]
    congr 1
    ring
  show (n : ℂ)⁻¹ * ∑ k : ZMod n, ∑ l : ZMod n,
      fft2 u k l * stdAddChar (k * a + l * b) = u a b
  calc (n : ℂ)⁻¹ * ∑ k : ZMod n, ∑ l : ZMod n,
        fft2 u k l * stdAddChar (k * a + l * b)
      = (n : ℂ)⁻¹ * ∑ k : ZMod n, ∑ l : ZMod n, (n : ℂ)⁻¹ *
          ∑ x : ZMod n, ∑ y : ZMod n,
            u x y * (stdAddChar ((a - x) * k) * stdAddChar ((b - y) * l)) := by
        simp only [h1]
    _ = (n : ℂ)⁻¹ * ((n : ℂ)⁻¹ * ∑ k : ZMod n, ∑ l : ZMod n,
          ∑ x : ZMod n, ∑ y : ZMod n,
            u x y * (stdAddChar ((a - x) * k) * stdAddChar ((b - y) * l))) := by
        simp only [← Finset.mul_sum]
    _ = (n : ℂ)⁻¹ * ((n : ℂ)⁻¹ * ∑ x : ZMod n, ∑ y : ZMod n,
          u x y * ((∑ k : ZMod n, stdAddChar ((a - x) * k)) *
            (∑ l : ZMod n, stdAddChar ((b - y) * l)))) := by
        congr 2
        rw [sum_reorder]
        refine Finset.sum_congr rfl fun x _ => Finset.sum_congr rfl fun y _ => ?_
        exact sum_sum_factor _ _ _
    _ = (n : ℂ)⁻¹ * ((n : ℂ)⁻¹ * ∑ x : ZMod n, ∑ y : ZMod n,
          u x y * ((if a - x = 0 then (n : ℂ) else 0) *
            (if b - y = 0 then (n : ℂ) else 0))) := by
        simp only [sum_stdAddChar_mul]
    _ = u a b := by
        simp only [sub_eq_zero, mul_ite, mul_zero, ite_mul, zero_mul,
          Finset.sum_ite_eq, Finset.mem_univ, if_true]
        field_simp

/-- Fourier inversion, the other composition: `fft2 ∘ ifft2 = id`. -/
theorem fft2_ifft2 [NeZero n] (u : Grid n) : fft2 (ifft2 u) = u := by
  funext a b
  have hn : (n : ℂ) ≠ 0 := Nat.cast_ne_zero.mpr (NeZero.ne n)
  have h1 : ∀ k l : ZMod n,
      ifft2 u k l * stdAddChar (-(k * a + l * b)) =
        (n : ℂ)⁻¹ * ∑ x : ZMod n, ∑ y : ZMod n,
          u x y * (stdAddChar ((x - a) * k) * stdAddChar ((y - b) * l)) := by
    intro k l
    simp only [ifft2]
    rw [mul_assoc]
    congr 1
    rw [Finset.sum_mul]
    refine Finset.sum_congr rfl fun x _ => ?_
    rw [Finset.sum_mul]
    refine Finset.sum_congr rfl fun y _ => ?_
    rw [mul_assoc]
    congr 1
    rw [← AddChar.map_add_eq_mul, ← AddChar.map_add_eq_mul]
    congr 1
    ring
  show (n : ℂ)⁻¹ * ∑ k : ZMod n, ∑ l : ZMod n,
      ifft2 u k l * stdAddChar (-(k * a + l * b)) = u a b
  calc (n : ℂ)⁻¹ * ∑ k : ZMod n, ∑ l : ZMod n,
        ifft2 u k l * stdAddChar (-(k * a + l * b))
      = (n : ℂ)⁻¹ * ∑ k : ZMod n, ∑ l : ZMod n, (n : ℂ)⁻¹ *
          ∑ x : ZMod n, ∑ y : ZMod n,
            u x y * (stdAddChar ((x - a) * k) * stdAddChar ((y - b) * l)) := by
        simp only [h1]
    _ = (n : ℂ)⁻¹ * ((n : ℂ)⁻¹ * ∑ k : ZMod n, ∑ l : ZMod n,
          ∑ x : ZMod n, ∑ y : ZMod n,
            u x y * (stdAddChar ((x - a) * k) * stdAddChar ((y - b) * l))) := by
        simp only [← Finset.mul_sum]
    _ = (n : ℂ)⁻¹ * ((n : ℂ)⁻¹ * ∑ x : ZMod n, ∑ y : ZMod n,
          u x y * ((∑ k : ZMod n, stdAddChar ((x - a) * k)) *
            (∑ l : ZMod n, stdAddChar ((y - b) * l)))) := by
        congr 2
        rw [sum_reorder]
        refine Finset.sum_congr rfl fun x _ => Finset.sum_congr rfl fun y _ => ?_
        exact sum_sum_factor _ _ _
    _ = (n : ℂ)⁻¹ * ((n : ℂ)⁻¹ * ∑ x : ZMod n, ∑ y : ZMod n,
          u x y * ((if x - a = 0 then (n : ℂ) else 0) *
            (if y - b = 0 then (n : ℂ) else 0))) := by
        simp only [sum_stdAddChar_mul]
    _ = u a b := by
        simp only [sub_eq_zero, mul_ite, mul_zero, ite_mul, zero_mul,
          Finset.sum_ite_eq', Finset.mem_univ, if_true]
        field_simp

/-- `fftshift ∘ ifftshift = id`. -/
theorem fftshift2_ifftshift2 (u : Grid n) : fftshift2 (ifftshift2 u) = u := by
  funext i j
  show u (i - ((n / 2 : ℕ) : ZMod n) + ((n / 2 : ℕ) : ZMod n))
      (j - ((n / 2 : ℕ) : ZMod n) + ((n / 2 : ℕ) : ZMod n)) = u i j
  congr 1 <;> ring

/-- `ifftshift ∘ fftshift = id`. -/
theorem ifftshift2_fftshift2 (u : Grid n) : ifftshift2 (fftshift2 u) = u := by
  funext i j
  show u (i + ((n / 2 : ℕ) : ZMod n) - ((n / 2 : ℕ) : ZMod n))
      (j + ((n / 2 : ℕ) : ZMod n) - ((n / 2 : ℕ) : ZMod n)) = u i j
  congr 1 <;> ring

/-- `ifft2c` undoes `fft2c` under either shift convention. -/
theorem ifft2c_fft2c [NeZero n] (u : Grid n) (b : Bool) :
    ifft2c (fft2c u b) b = u := by
  cases b
  · show fftshift2 (ifft2 (ifftshift2 (fftshift2 (fft2 (ifftshift2 u))))) = u
    rw [ifftshift2_fftshift2, ifft2_fft2, fftshift2_ifftshift2]
  · show ifft2 (fft2 u) = u
    exact ifft2_fft2 u

/-- `fft2c` undoes `ifft2c` under either shift convention. -/
theorem fft2c_ifft2c [NeZero n] (u : Grid n) (b : Bool) :
    fft2c (ifft2c u b) b = u := by
  cases b
  · show fftshift2 (fft2 (ifftshift2 (fftshift2 (ifft2 (ifftshift2 u))))) = u
    rw [ifftshift2_fftshift2, fft2_ifft2, fftshift2_ifftshift2]
  · show fft2 (ifft2 u) = u
    exact fft2_ifft2 u

/-- Field-level inversion: `ifft2cF ∘ fft2cF = id`. -/
theorem ifft2cF_fft2cF [NeZero n] (u : PField nl n) (b : Bool) :
    ifft2cF (fft2cF u b) b = u :=
  funext fun _ => ifft2c_fft2c _ b

/-- Field-level inversion: `fft2cF ∘ ifft2cF = id`. -/
theorem fft2cF_ifft2cF [NeZero n] (u : PField nl n) (b : Bool) :
    fft2cF (ifft2cF u b) b = u :=
  funext fun _ => fft2c_ifft2c _ b

/-- The DFT of the zero grid is zero. -/
theorem fft2_zero [NeZero n] : fft2 (0 : Grid n) = 0 := by
  funext k l
  simp [fft2]

/-- The inverse DFT of the zero grid is zero. -/
theorem ifft2_zero [NeZero n] : ifft2 (0 : Grid n) = 0 := by
  funext k l
  simp [ifft2]

/-- `fft2c` of the zero grid is zero. -/
theorem fft2c_zero [NeZero n] (b : Bool) : fft2c (0 : Grid n) b = 0 := by
  have hsh : ifftshift2 (0 : Grid n) = 0 := rfl
  have hsh2 : fftshift2 (0 : Grid n) = 0 := rfl
  cases b
  · show fftshift2 (fft2 (ifftshift2 (0 : Grid n))) = 0
    rw [hsh, fft2_zero, hsh2]
  · exact fft2_zero

/-- `ifft2c` of the zero grid is zero. -/
theorem ifft2c_zero [NeZero n] (b : Bool) : ifft2c (0 : Grid n) b = 0 := by
  have hsh : ifftshift2 (0 : Grid n) = 0 := rfl
  have hsh2 : fftshift2 (0 : Grid n) = 0 := rfl
  cases b
  · show fftshift2 (ifft2 (ifftshift2 (0 : Grid n))) = 0
    rw [hsh, ifft2_zero, hsh2]
  · exact ifft2_zero

/-- `exp(i·t)` for real `t` times its conjugate is `1`. -/
theorem expI_mul_star (t : ℝ) :
    Complex.exp (Complex.I * t) * star (Complex.exp (Complex.I * t)) = 1 := by
  rw [Complex.star_def, ← Complex.exp_conj, map_mul, Complex.conj_I,
    Complex.conj_ofReal, ← Complex.exp_add,
    show Complex.I * t + -Complex.I * t = 0 by ring, Complex.exp_zero]

/-- `exp(-i·t)` for real `t` times its conjugate is `1`. -/
theorem expNegI_mul_star (t : ℝ) :
    Complex.exp (-Complex.I * t) * star (Complex.exp (-Complex.I * t)) = 1 := by
  rw [Complex.star_def, ← Complex.exp_conj, map_mul, map_neg, Complex.conj_I,
    Complex.conj_ofReal, ← Complex.exp_add,
    show -Complex.I * t + - -Complex.I * t = 0 by ring, Complex.exp_zero]

/-- The Fresnel quadratic phase has unit modulus everywhere. -/
theorem make_quad_phase_unimodular (zo wl dxp : ℝ) :
    unimodular (make_quad_phase n zo wl dxp) := by
  show make_quad_phase n zo wl dxp * star (make_quad_phase n zo wl dxp) = 1
  funext i j
  exact expI_mul_star _

/-- Broadcasting preserves unit modulus. -/
theorem unimodular_bcast {g : Grid n} (h : unimodular g) :
    unimodular (bcast g : PField nl n) := by
  show bcast g * star (bcast g) = 1
  funext l
  exact h

/-- A per-wavelength kernel of unit-modulus grids has unit modulus. -/
theorem unimodular_pfield {K : PField nl n} (h : ∀ l, unimodular (K l)) :
    unimodular K := by
  show K * star K = 1
  funext l
  exact h l

/-- Multiplying by a unit-modulus kernel and then its conjugate is the
identity. -/
theorem mul_unimodular_cancel (u K : PField nl n) (h : unimodular K) :
    u * K * star K = u := by
  rw [mul_assoc, h, mul_one]

/-- Fraunhofer round trip: inverse ∘ forward is the identity for every field
and either shift convention. -/
theorem roundtrip_fraunhofer [NeZero n] (b g : Bool) (r : Reconstruction nl n)
    (u : PField nl n) : roundtrip ⟨"Fraunhofer", b, g⟩ r u = .ok u := by
  simp only [roundtrip, object2detector, detector2object, forward_lookup_dictionary,
    reverse_lookup_dictionary, if_pos, Option.getD_some, propagate_fraunhofer,
    propagate_fraunhofer_inv, Except.bind, Except.map]
  rw [ifft2cF_fft2cF]

/-- Fresnel round trip: the conjugate quadratic phase cancels the forward
one exactly. -/
theorem roundtrip_fresnel [NeZero n] (b g : Bool) (r : Reconstruction nl n)
    (u : PField nl n) : roundtrip ⟨"Fresnel", b, g⟩ r u = .ok u := by
  simp only [roundtrip, object2detector, detector2object, forward_lookup_dictionary,
    reverse_lookup_dictionary, String.reduceEq, reduceIte, Option.getD_some,
    propagate_fresnel, propagate_fresnel_inv, Option.getD_none, Except.bind,
    Except.map]
  rw [ifft2cF_fft2cF]
  show Except.ok (u * bcast (make_quad_phase n r.zo r.wavelength r.dxp) *
    star (bcast (make_quad_phase n r.zo r.wavelength r.dxp))) = Except.ok u
  rw [mul_unimodular_cancel _ _ (unimodular_bcast (make_quad_phase_unimodular _ _ _))]

/-- ASP round trip under a unit-modulus transfer function. -/
theorem roundtrip_ASP [NeZero n] (g : Bool) (r : Reconstruction nl n)
    (u : PField nl n) (hnl : nl ≤ 1)
    (hK : unimodular (aspwKernel n r.zo r.wavelength r.Lp)) :
    roundtrip ⟨"ASP", false, g⟩ r u = .ok u := by
  have hlt : ¬ (1 < nl) := Nat.not_lt.mpr hnl
  simp only [roundtrip, object2detector, detector2object, forward_lookup_dictionary,
    reverse_lookup_dictionary, String.reduceEq, reduceIte, Option.getD_some,
    propagate_ASP, propagate_ASP_inv, make_transferfunction_ASP, hlt,
    Option.getD_none, Except.bind, Except.map, Bool.false_eq_true, if_false,
    if_true]
  rw [fft2cF_ifft2cF, mul_unimodular_cancel _ _ (unimodular_bcast hK),
    ifft2cF_fft2cF]

/-- polychromeASP round trip under per-wavelength unit-modulus transfer
functions. -/
theorem roundtrip_polychromeASP [NeZero n] (g : Bool) (r : Reconstruction nl n)
    (u : PField nl n)
    (hK : ∀ l : Fin nl,
      unimodular (aspwKernel n r.zo (r.spectralDensity l.val) r.Lp)) :
    roundtrip ⟨"polychromeASP", false, g⟩ r u = .ok u := by
  simp only [roundtrip, object2detector, detector2object, forward_lookup_dictionary,
    reverse_lookup_dictionary, String.reduceEq, reduceIte, Option.getD_some,
    propagate_polychromeASP, propagate_polychromeASP_inv,
    make_transferfunction_polychrome_ASP, Option.getD_none, Except.bind,
    Except.map, Bool.false_eq_true, if_false, if_true]
  rw [fft2cF_ifft2cF, mul_unimodular_cancel _ _ (unimodular_pfield hK),
    ifft2cF_fft2cF]

/-- scaledASP round trip under unit-modulus quadratic-phase factors. -/
theorem roundtrip_scaledASP [NeZero n] (g : Bool) (r : Reconstruction nl n)
    (u : PField nl n) (hnl : nl ≤ 1)
    (hQ1 : unimodular (scaledASP_Q1 n r.zo r.wavelength r.dxo r.dxd))
    (hQ2 : unimodular (scaledASP_Q2 n r.zo r.wavelength r.dxo r.dxd)) :
    roundtrip ⟨"scaledASP", false, g⟩ r u = .ok u := by
  have hlt : ¬ (1 < nl) := Nat.not_lt.mpr hnl
  simp only [roundtrip, object2detector, detector2object, forward_lookup_dictionary,
    reverse_lookup_dictionary, String.reduceEq, reduceIte, Option.getD_some,
    propagate_scaledASP, propagate_scaledASP_inv,
    make_transferfunction_scaledASP, hlt, Option.getD_none, Except.bind,
    Except.map, Bool.false_eq_true, if_false, if_true]
  rw [fft2cF_ifft2cF, mul_unimodular_cancel _ _ (unimodular_bcast hQ2),
    ifft2cF_fft2cF, mul_unimodular_cancel _ _ (unimodular_bcast hQ1)]

/-- The float-`arange` frequency coordinate squared is at most `((n/2)/L)²`. -/
theorem coordA_sq_le [NeZero n] (L : ℝ) (hL : 0 < L) (k : ZMod n) :
    (coordA n L k) ^ 2 ≤ (((n : ℝ) / 2) / L) ^ 2 := by
  have hv : (k.val : ℝ) + 1 ≤ (n : ℝ) := by exact_mod_cast ZMod.val_lt k
  have h0 : (0 : ℝ) ≤ (k.val : ℝ) := Nat.cast_nonneg _
  have h2 : ((k.val : ℝ) - (n : ℝ) / 2) ^ 2 ≤ ((n : ℝ) / 2) ^ 2 :=
    sq_le_sq' (by linarith) (by linarith)
  rw [coordA, div_pow, div_pow]
  exact (div_le_div_right (by positivity)).mpr h2

/-- The integer-`arange` coordinate squared is at most `(⌈n/2⌉·dx)²`. -/
theorem coordX_sq_le [NeZero n] (dx : ℝ) (hdx : 0 < dx) (k : ZMod n) :
    (coordX n dx k) ^ 2 ≤ ((((n + 1) / 2 : ℕ) : ℝ) * dx) ^ 2 := by
  have hv : (k.val : ℝ) + 1 ≤ (n : ℝ) := by exact_mod_cast ZMod.val_lt k
  have h0 : (0 : ℝ) ≤ (k.val : ℝ) := Nat.cast_nonneg _
  have hhalf : (n : ℝ) ≤ 2 * (((n + 1) / 2 : ℕ) : ℝ) := by
    have h : n ≤ 2 * ((n + 1) / 2) := by omega
    exact_mod_cast h
  have h2 : ((k.val : ℝ) - (((n + 1) / 2 : ℕ) : ℝ)) ^ 2 ≤
      (((n + 1) / 2 : ℕ) : ℝ) ^ 2 :=
    sq_le_sq' (by linarith) (by linarith)
  rw [coordX, mul_pow, mul_pow]
  exact mul_le_mul_of_nonneg_right h2 (by positivity)

/-- The integer-`arange` spatial frequency squared is at most
`(⌈n/2⌉/(n·dx))²`. -/
theorem coordFr_sq_le [NeZero n] (dx : ℝ) (hdx : 0 < dx) (k : ZMod n) :
    (coordFr n dx k) ^ 2 ≤ ((((n + 1) / 2 : ℕ) : ℝ) / ((n : ℝ) * dx)) ^ 2 := by
  have hv : (k.val : ℝ) + 1 ≤ (n : ℝ) := by exact_mod_cast ZMod.val_lt k
  have h0 : (0 : ℝ) ≤ (k.val : ℝ) := Nat.cast_nonneg _
  have hhalf : (n : ℝ) ≤ 2 * (((n + 1) / 2 : ℕ) : ℝ) := by
    have h : n ≤ 2 * ((n + 1) / 2) := by omega
    exact_mod_cast h
  have hn0 : (0 : ℝ) < (n : ℝ) := by
    have := NeZero.pos n
    exact_mod_cast this
  have h2 : ((k.val : ℝ) - (((n + 1) / 2 : ℕ) : ℝ)) ^ 2 ≤
      (((n + 1) / 2 : ℕ) : ℝ) ^ 2 :=
    sq_le_sq' (by linarith) (by linarith)
  rw [coordFr, div_pow, div_pow]
  exact (div_le_div_right (by positivity)).mpr h2

/-- Sufficient scalar bounds under which the `aspw` transfer function has
unit modulus everywhere: the evanescent mask and the band-limit window both
pass every sampled frequency. -/
theorem aspwKernel_unimodular [NeZero n] (z wl L : ℝ) (hL : 0 < L)
    (hw : 0 < wl)
    (h1 : 2 * (wl ^ 2 * (((n : ℝ) / 2) / L) ^ 2) < 1)
    (h2 : 2 * ((((n : ℝ) / 2) / L) ^ 2) < L ^ 2 / (wl ^ 2 * (L ^ 2 + 4 * z ^ 2))) :
    unimodular (aspwKernel n z wl L) := by
  show aspwKernel n z wl L * star (aspwKernel n z wl L) = 1
  funext i j
  have hx := coordA_sq_le L hL j
  have hy := coordA_sq_le L hL i
  have hB : (0 : ℝ) ≤ (((n : ℝ) / 2) / L) ^ 2 := by positivity
  have hw2 : (0 : ℝ) ≤ wl ^ 2 := by positivity
  have hmask : 0 < aspw_exponent n wl L i j := by
    rw [aspw_exponent, mul_pow, mul_pow]
    nlinarith [mul_le_mul_of_nonneg_right hx hw2, mul_le_mul_of_nonneg_right hy hw2]
  have hfmax : (2 * aspw_fmax z wl L / 2) ^ 2 = L ^ 2 / (wl ^ 2 * (L ^ 2 + 4 * z ^ 2)) := by
    have h5 : 2 * aspw_fmax z wl L / 2 = aspw_fmax z wl L := by ring
    rw [h5, aspw_fmax, div_pow, mul_pow, Real.sq_sqrt (by positivity)]
  have hW : (coordA n L j) ^ 2 + (coordA n L i) ^ 2 < (2 * aspw_fmax z wl L / 2) ^ 2 := by
    rw [hfmax]
    nlinarith
  show aspwKernel n z wl L i j * star (aspwKernel n z wl L i j) = 1
  rw [aspwKernel, aspw_H, aspw_W, circ, if_pos hmask, if_pos hW]
  simp only [Real.sqrt_one, Complex.ofReal_one, one_mul, mul_one]
  exact expI_mul_star _

/-- Sufficient scalar bound under which the `scaledASP` object-plane factor
`Q1` has unit modulus everywhere (its window passes every sample). -/
theorem scaledASP_Q1_unimodular [NeZero n] (z wl dx dq : ℝ) (hdx : 0 < dx)
    (h : 2 * (((((n + 1) / 2 : ℕ) : ℝ) * dx) ^ 2) <
      (wl * z / (2 * dx * (1 - dq / dx))) ^ 2) :
    unimodular (scaledASP_Q1 n z wl dx dq) := by
  show scaledASP_Q1 n z wl dx dq * star (scaledASP_Q1 n z wl dx dq) = 1
  funext i j
  have hx := coordX_sq_le dx hdx j
  have hy := coordX_sq_le dx hdx i
  have hr : (2 * (wl * z / (2 * dx * (1 - dq / dx))) / 2) ^ 2 =
      (wl * z / (2 * dx * (1 - dq / dx))) ^ 2 := by ring
  have hWr : (coordX n dx j) ^ 2 + (coordX n dx i) ^ 2 <
      (2 * (wl * z / (2 * dx * (1 - dq / dx))) / 2) ^ 2 := by
    rw [hr]; nlinarith
  show scaledASP_Q1 n z wl dx dq i j * star (scaledASP_Q1 n z wl dx dq i j) = 1
  rw [scaledASP_Q1]
  by_cases hm : (1 : ℝ) - dq / dx = 0
  · rw [if_pos hm]
    simp only [Complex.ofReal_one, mul_one]
    exact expI_mul_star _
  · rw [if_neg hm, circ, if_pos hWr]
    simp only [Complex.ofReal_one, mul_one]
    exact expI_mul_star _

/-- Sufficient scalar bound under which the `scaledASP` frequency-plane factor
`Q2` has unit modulus everywhere. -/
theorem scaledASP_Q2_unimodular [NeZero n] (z wl dx dq : ℝ) (hdx : 0 < dx)
    (h : 2 * (((((n + 1) / 2 : ℕ) : ℝ) / ((n : ℝ) * dx)) ^ 2) <
      ((dq / dx) / (2 * z * wl * (1 / ((n : ℝ) * dx)))) ^ 2) :
    unimodular (scaledASP_Q2 n z wl dx dq) := by
  unfold unimodular
  funext i j
  have hx := coordFr_sq_le dx hdx j
  have hy := coordFr_sq_le dx hdx i
  have hr : (2 * ((dq / dx) / (2 * z * wl * (1 / ((n : ℝ) * dx)))) / 2) ^ 2 =
      ((dq / dx) / (2 * z * wl * (1 / ((n : ℝ) * dx)))) ^ 2 := by ring
  have hWf : (coordFr n dx j) ^ 2 + (coordFr n dx i) ^ 2 <
      (2 * ((dq / dx) / (2 * z * wl * (1 / ((n : ℝ) * dx)))) / 2) ^ 2 := by
    rw [hr]; nlinarith
  show scaledASP_Q2 n z wl dx dq i j * star (scaledASP_Q2 n z wl dx dq i j) = 1
  rw [scaledASP_Q2, circ, if_pos hWf]
  simp only [Complex.ofReal_one, mul_one]
  exact expNegI_mul_star _

/-- C1 (amended).  For every field and every state, the adapter round trip
`detector2object(object2detector(u, p)[1], p)[1]` returns the field exactly
(not merely within tolerance) for the models `Fraunhofer` and `Fresnel`
unconditionally, and for `ASP`, `polychromeASP` and `scaledASP` whenever the
model's kernels are unimodular, i.e. the evanescent mask and band-limit
windows pass every sampled frequency (the physically sampled regime; with
out-of-band content the windows zero part of the spectrum, and the remaining
two models `scaledPolychromeASP` / `twoStepPolychrome` do not round-trip at
all, see C4). -/
theorem C1_round_trip [NeZero n] (p : Params) (r : Reconstruction nl n)
    (u : PField nl n)
    (hshift : p.fftshiftSwitch = false)
    (hnl : (p.propagatorType = "ASP" ∨ p.propagatorType = "scaledASP") → nl ≤ 1)
    (hASP : p.propagatorType = "ASP" →
      unimodular (aspwKernel n r.zo r.wavelength r.Lp))
    (hpoly : p.propagatorType = "polychromeASP" →
      ∀ l : Fin nl, unimodular (aspwKernel n r.zo (r.spectralDensity l.val) r.Lp))
    (hsc1 : p.propagatorType = "scaledASP" →
      unimodular (scaledASP_Q1 n r.zo r.wavelength r.dxo r.dxd))
    (hsc2 : p.propagatorType = "scaledASP" →
      unimodular (scaledASP_Q2 n r.zo r.wavelength r.dxo r.dxd))
    (hmem : p.propagatorType ∈ invertiblePropagators) :
    roundtrip p r u = .ok u := by
  obtain ⟨pt, ps, pg⟩ := p
  simp only at hshift hnl hASP hpoly hsc1 hsc2 hmem
  subst hshift
  simp only [invertiblePropagators, List.mem_cons, List.not_mem_nil, or_false] at hmem
  rcases hmem with h | h | h | h | h
  · subst h; exact roundtrip_fraunhofer false pg r u
  · subst h; exact roundtrip_fresnel false pg r u
  · subst h; exact roundtrip_ASP pg r u (hnl (Or.inl rfl)) (hASP rfl)
  · subst h; exact roundtrip_polychromeASP pg r u (hpoly rfl)
  · subst h; exact roundtrip_scaledASP pg r u (hnl (Or.inr rfl)) (hsc1 rfl) (hsc2 rfl)

/-- Witness for C1: the spec's concrete 64×64 all-ones scenario
(`z = 0.01`, `λ = 500e-9`, `Lp = 1e-3`) round-trips exactly under
`Fraunhofer`, and also under `ASP` (whose mask and window pass all 64×64
frequencies at these parameters). -/
theorem C1_round_trip_witness :
    pFraunhofer.fftshiftSwitch = false ∧
    roundtrip pFraunhofer rW64 (1 : PField 1 64) = .ok 1 ∧
    roundtrip pASP rW64 (1 : PField 1 64) = .ok 1 := by
  have hK : unimodular (aspwKernel 64 rW64.zo rW64.wavelength rW64.Lp) := by
    apply aspwKernel_unimodular
    · show (0 : ℝ) < rW64.Lp
      norm_num [rW64]
    · show (0 : ℝ) < rW64.wavelength
      norm_num [rW64]
    · norm_num [rW64]
    · norm_num [rW64]
  refine ⟨rfl, ?_, ?_⟩
  · exact C1_round_trip pFraunhofer rW64 1 rfl (fun _ => le_refl 1)
      (fun h => absurd h (by decide)) (fun h => absurd h (by decide))
      (fun h => absurd h (by decide)) (fun h => absurd h (by decide)) (by decide)
  · exact C1_round_trip pASP rW64 1 rfl (fun _ => le_refl 1)
      (fun _ => hK) (fun h => absurd h (by decide))
      (fun h => absurd h (by decide)) (fun h => absurd h (by decide)) (by decide)

/-- Closed form of the ASP adapter round trip: the spectrum is multiplied by
`K·conj(K)` (the phases cancel; only the 0/1 mask-window factor remains). -/
theorem roundtrip_ASP_eq [NeZero n] (g : Bool) (r : Reconstruction nl n)
    (u : PField nl n) (hnl : nl ≤ 1) :
    roundtrip ⟨"ASP", false, g⟩ r u =
      .ok (ifft2cF ((fft2cF u false * bcast (aspwKernel n r.zo r.wavelength r.Lp)) *
        star (bcast (aspwKernel n r.zo r.wavelength r.Lp))) false) := by
  have hlt : ¬ (1 < nl) := Nat.not_lt.mpr hnl
  simp only [roundtrip, object2detector, detector2object, forward_lookup_dictionary,
    reverse_lookup_dictionary, String.reduceEq, reduceIte, Option.getD_some,
    propagate_ASP, propagate_ASP_inv, make_transferfunction_ASP, hlt,
    Option.getD_none, Except.bind, Except.map, Bool.false_eq_true, if_false,
    if_true]
  rw [fft2cF_ifft2cF]

/-- Sums over `ZMod 2` expand to the two terms. -/
theorem sum_zmod_two (f : ZMod 2 → ℂ) : ∑ x : ZMod 2, f x = f 0 + f 1 := by
  have huniv : (Finset.univ : Finset (ZMod 2)) = {0, 1} := by decide
  rw [huniv, Finset.sum_insert (by decide), Finset.sum_singleton]

/-- At the counterexample parameters (`z = 10`, `λ = 500 nm`, `L = 1 mm`,
`N = 2`) the band-limit window rejects both non-zero sampled frequencies, so
the transfer function vanishes off the centre sample. -/
theorem cexKernel_vanish (i j : ZMod 2) (h : i = 0 ∨ j = 0) :
    aspwKernel 2 rCex.zo rCex.wavelength rCex.Lp i j = 0 := by
  have hv0 : ((0 : ZMod 2)).val = 0 := rfl
  have hv1 : ((1 : ZMod 2)).val = 1 := rfl
  have hfmax : (2 * aspw_fmax rCex.zo rCex.wavelength rCex.Lp / 2) ^ 2 =
      rCex.Lp ^ 2 / (rCex.wavelength ^ 2 * (rCex.Lp ^ 2 + 4 * rCex.zo ^ 2)) := by
    have h5 : 2 * aspw_fmax rCex.zo rCex.wavelength rCex.Lp / 2 =
        aspw_fmax rCex.zo rCex.wavelength rCex.Lp := by ring
    rw [h5, aspw_fmax, div_pow, mul_pow, Real.sq_sqrt (by norm_num [rCex])]
  have hcoord0 : coordA 2 rCex.Lp (0 : ZMod 2) = -1000 := by
    rw [coordA, hv0]
    norm_num [rCex]
  have hW : ∀ i' j' : ZMod 2, i' = 0 ∨ j' = 0 →
      aspw_W 2 rCex.zo rCex.wavelength rCex.Lp i' j' = 0 := by
    intro i' j' h'
    rw [aspw_W, circ, if_neg, Complex.ofReal_zero]
    rw [hfmax]
    have hb : ∀ k : ZMod 2, 0 ≤ (coordA 2 rCex.Lp k) ^ 2 := fun k => sq_nonneg _
    rcases h' with rfl | rfl
    · rw [hcoord0]
      have := hb j'
      norm_num [rCex] at this ⊢
      nlinarith
    · rw [hcoord0]
      have := hb i'
      norm_num [rCex] at this ⊢
      nlinarith
  rw [aspwKernel, hW i j h, mul_zero]

/-- The checkerboard field has zero mean, so its centred spectrum vanishes at
the zero-frequency sample (index `(1, 1)` of the 2×2 grid). -/
theorem cex_F_dc (l : Fin 1) : fft2cF uCex false l 1 1 = 0 := by
  show fftshift2 (fft2 (ifftshift2 (uCex l))) 1 1 = 0
  have hc : (1 : ZMod 2) - ((2 / 2 : ℕ) : ZMod 2) = 0 := by decide
  simp only [fftshift2]
  rw [hc]
  simp only [fft2, mul_zero, add_zero, neg_zero, AddChar.map_zero_eq_one,
    mul_one, ifftshift2]
  have h01 : (0 : ZMod 2) + ((2 / 2 : ℕ) : ZMod 2) = 1 := by decide
  have h11 : (1 : ZMod 2) + ((2 / 2 : ℕ) : ZMod 2) = 0 := by decide
  simp only [sum_zmod_two, h01, h11]
  have u11 : uCex l 1 1 = 1 := if_pos rfl
  have u10 : uCex l 1 0 = -1 := if_neg (by decide)
  have u01 : uCex l 0 1 = -1 := if_neg (by decide)
  have u00 : uCex l 0 0 = 1 := if_pos rfl
  rw [u11, u10, u01, u00]
  norm_num

/-- C1, counterexample to the claim as stated: under the `ASP` model with the
physically valid far-field parameters `z = 10`, `λ = 500e-9`, `Lp = 1e-3` on a
2×2 grid, the forward-then-inverse adapter round trip maps the unit-modulus
checkerboard field to the zero field — no tolerance recovers it. -/
theorem C1_counterexample :
    roundtrip pASP rCex uCex = .ok 0 ∧ uCex 0 0 0 = 1 := by
  have hcase : ∀ t : ZMod 2, t = 0 ∨ t = 1 := by decide
  constructor
  · have h := roundtrip_ASP_eq false rCex uCex (le_refl 1)
    have hp : pASP = (⟨"ASP", false, false⟩ : Params) := rfl
    rw [hp, h]
    have hzero : (fft2cF uCex false *
          bcast (aspwKernel 2 rCex.zo rCex.wavelength rCex.Lp)) *
        star (bcast (aspwKernel 2 rCex.zo rCex.wavelength rCex.Lp)) = 0 := by
      funext l x y
      show fft2cF uCex false l x y *
          aspwKernel 2 rCex.zo rCex.wavelength rCex.Lp x y *
          star (aspwKernel 2 rCex.zo rCex.wavelength rCex.Lp x y) = 0
      rcases hcase x with rfl | rfl
      · rw [cexKernel_vanish 0 y (Or.inl rfl)]
        simp
      · rcases hcase y with rfl | rfl
        · rw [cexKernel_vanish 1 0 (Or.inr rfl)]
          simp
        · rw [cex_F_dc l]
          simp
    rw [hzero]
    have : ifft2cF (0 : PField 1 2) false = 0 := funext fun _ => ifft2c_zero false
    rw [this]
  · exact if_pos rfl

/-- C2.  The `aspw` transfer function does not satisfy the spec's formula:
because the source clips the boolean mask instead of the exponent
(`exponent = xp.clip(mask, 0, None)`), the square root is taken of `1`
instead of `1 − (λFx)² − (λFy)²`.  At `N = 2`, `z = 1/10`, `λ = 1/2`,
`L = 1`, frequency sample `(Fx, Fy) = (−1, 0)` (exponent `3/4`, inside both
mask and window), the code's kernel entry is `exp(2πi/5)` while the spec's
formula gives `exp(i·(2π/5)·(√3/2))`, and these differ. -/
theorem C2_aspw_kernel_clip_bug :
    aspwKernel 2 (1/10) (1/2) 1 1 0 =
      Complex.exp (Complex.I * ((2 * Real.pi / 5 : ℝ) : ℂ)) ∧
    aspwKernel 2 (1/10) (1/2) 1 1 0 ≠ aspwKernelSpec 2 (1/10) (1/2) 1 1 0 := by
  have hv0 : ((0 : ZMod 2)).val = 0 := rfl
  have hv1 : ((1 : ZMod 2)).val = 1 := rfl
  have hex : aspw_exponent 2 (1/2) 1 1 0 = 3/4 := by
    rw [aspw_exponent, coordA, coordA, hv0, hv1]
    norm_num
  have hmask : 0 < aspw_exponent 2 (1/2) 1 1 0 := by rw [hex]; norm_num
  have hone : (if 0 < aspw_exponent 2 (1/2) 1 1 0 then (1 : ℝ) else 0) = 1 :=
    if_pos hmask
  have hone' : (if 0 < aspw_exponent 2 (1/2) 1 1 0 then ((1 : ℝ) : ℂ) else (0 : ℂ)) = 1 := by
    rw [if_pos hmask, Complex.ofReal_one]
  have hcond : (coordA 2 1 (0 : ZMod 2)) ^ 2 + (coordA 2 1 (1 : ZMod 2)) ^ 2 <
      (2 * aspw_fmax (1/10) (1/2) 1 / 2) ^ 2 := by
    have h5 : 2 * aspw_fmax (1/10) (1/2) 1 / 2 = aspw_fmax (1/10) (1/2) 1 := by
      ring
    rw [h5, aspw_fmax, div_pow, mul_pow, Real.sq_sqrt (by norm_num),
      coordA, coordA, hv0, hv1]
    norm_num
  have hW : aspw_W 2 (1/10) (1/2) 1 1 0 = 1 := by
    rw [aspw_W, circ, if_pos hcond, Complex.ofReal_one]
  have hcode : aspwKernel 2 (1/10) (1/2) 1 1 0 =
      Complex.exp (Complex.I * ((2 * Real.pi / 5 : ℝ) : ℂ)) := by
    rw [aspwKernel, hW, mul_one, aspw_H, hone', hone, Real.sqrt_one, one_mul]
    congr 2
    exact Complex.ofReal_inj.mpr (by ring)
  have hsq34 : Real.sqrt (3/4) = Real.sqrt 3 / 2 := by
    rw [Real.sqrt_div (by norm_num : (0:ℝ) ≤ 3) 4,
      show (4:ℝ) = 2 ^ 2 by norm_num, Real.sqrt_sq (by norm_num : (0:ℝ) ≤ 2)]
  have hspec : aspwKernelSpec 2 (1/10) (1/2) 1 1 0 =
      Complex.exp (Complex.I * ((2 * Real.pi / 5 * (Real.sqrt 3 / 2) : ℝ) : ℂ)) := by
    rw [aspwKernelSpec, hW, mul_one, hone', hex, hsq34, one_mul]
    congr 2
    exact Complex.ofReal_inj.mpr (by ring)
  refine ⟨hcode, ?_⟩
  rw [hcode, hspec]
  intro heq
  rw [Complex.exp_eq_exp_iff_exists_int] at heq
  obtain ⟨t, ht⟩ := heq
  push_cast at ht
  have hreal : 2 * Real.pi / 5 - 2 * Real.pi / 5 * (Real.sqrt 3 / 2) -
      (t : ℝ) * (2 * Real.pi) = 0 := by
    have h5 : ((2 * Real.pi / 5 - 2 * Real.pi / 5 * (Real.sqrt 3 / 2) -
        (t : ℝ) * (2 * Real.pi) : ℝ) : ℂ) * Complex.I = 0 := by
      push_cast
      linear_combination ht
    rcases mul_eq_zero.mp h5 with h | h
    · exact Complex.ofReal_eq_zero.mp h
    · exact absurd h Complex.I_ne_zero
  have h7 : Real.pi * (2/5 - Real.sqrt 3 / 5 - 2 * (t : ℝ)) = 0 := by
    linear_combination hreal
  rcases mul_eq_zero.mp h7 with hp | h8
  · exact Real.pi_ne_zero hp
  · have h9 : Real.sqrt 3 = ((2 - 10 * t : ℤ) : ℝ) := by
      push_cast
      linarith
    have hirr : Irrational (Real.sqrt 3) := by
      have h := (Nat.prime_three).irrational_sqrt
      norm_num at h
      exact h
    exact hirr.ne_int _ h9
/-- C3 (amended).  Thirteen of the fourteen propagator functions return
`reconstruction.esw` as the first component of their pair.  The exception is
`propagate_twoStepPolychrome_inv`, which returns `(G, F)`: `G` is the inverse
transform applied to `reconstruction.ESW` and `F` is the inverse transform
applied to its own `fields` argument (each equal to the second component of
the corresponding forward call with `inverse = True`); the stored `esw`
appears in neither component. -/
theorem C3_first_component [NeZero n] (p : Params) (r : Reconstruction nl n)
    (u : PField nl n) (zopt : Option ℝ) (inv : Bool) :
    (∀ res, propagate_fraunhofer u p r zopt = .ok res → res.1 = r.esw) ∧
    (∀ res, propagate_fraunhofer_inv u p r zopt = .ok res → res.1 = r.esw) ∧
    (∀ res, propagate_fresnel u p r zopt = .ok res → res.1 = r.esw) ∧
    (∀ res, propagate_fresnel_inv u p r zopt = .ok res → res.1 = r.esw) ∧
    (∀ res, propagate_ASP u p r inv zopt = .ok res → res.1 = r.esw) ∧
    (∀ res, propagate_ASP_inv u p r zopt = .ok res → res.1 = r.esw) ∧
    (∀ res, propagate_polychromeASP u p r inv zopt = .ok res → res.1 = r.esw) ∧
    (∀ res, propagate_polychromeASP_inv u p r zopt = .ok res → res.1 = r.esw) ∧
    (∀ res, propagate_scaledASP u p r inv zopt = .ok res → res.1 = r.esw) ∧
    (∀ res, propagate_scaledASP_inv u p r zopt = .ok res → res.1 = r.esw) ∧
    (∀ res, propagate_scaledPolychromeASP u p r inv zopt = .ok res → res.1 = r.esw) ∧
    (∀ res, propagate_scaledPolychromeASP_inv u p r zopt = .ok res → res.1 = r.esw) ∧
    (∀ res, propagate_twoStepPolychrome u p r inv zopt = .ok res → res.1 = r.esw) ∧
    (∀ res, propagate_twoStepPolychrome_inv u p r zopt = .ok res →
      ∀ Fp, propagate_twoStepPolychrome u p r true zopt = .ok Fp →
      ∀ Gp, propagate_twoStepPolychrome r.ESW p r true zopt = .ok Gp →
        res.1 = Gp.2 ∧ res.2 = Fp.2) := by
  refine ⟨?_, ?_, ?_, ?_, ?_, ?_, ?_, ?_, ?_, ?_, ?_, ?_, ?_, ?_⟩
  · intro res h
    simp only [propagate_fraunhofer, Except.ok.injEq] at h
    subst h; rfl
  · intro res h
    simp only [propagate_fraunhofer_inv, Except.ok.injEq] at h
    subst h; rfl
  · intro res h
    simp only [propagate_fresnel, Except.ok.injEq] at h
    subst h; rfl
  · intro res h
    simp only [propagate_fresnel_inv, Except.ok.injEq] at h
    subst h; rfl
  · intro res h
    by_cases hs : p.fftshiftSwitch = true
    · simp only [propagate_ASP, hs, reduceIte] at h
      exact Except.noConfusion h
    · by_cases hl : 1 < nl
      · simp only [propagate_ASP, hs, hl, Bool.false_eq_true, if_false,
          if_true, reduceIte] at h
        exact Except.noConfusion h
      · simp only [propagate_ASP, make_transferfunction_ASP, hs, hl,
          Bool.false_eq_true, if_false, if_true, reduceIte, Except.map,
          Except.ok.injEq] at h
        subst h; rfl
  · intro res h
    simp only [propagate_ASP_inv] at h
    by_cases hs : p.fftshiftSwitch = true
    · simp only [propagate_ASP, hs, reduceIte] at h
      exact Except.noConfusion h
    · by_cases hl : 1 < nl
      · simp only [propagate_ASP, hs, hl, Bool.false_eq_true, if_false,
          if_true, reduceIte] at h
        exact Except.noConfusion h
      · simp only [propagate_ASP, make_transferfunction_ASP, hs, hl,
          Bool.false_eq_true, if_false, if_true, reduceIte, Except.map,
          Except.ok.injEq] at h
        subst h; rfl
  · intro res h
    by_cases hs : p.fftshiftSwitch = true
    · simp only [propagate_polychromeASP, make_transferfunction_polychrome_ASP,
        hs, reduceIte, Except.map] at h
      exact Except.noConfusion h
    · simp only [propagate_polychromeASP, make_transferfunction_polychrome_ASP,
        hs, Bool.false_eq_true, if_false, reduceIte, Except.map,
        Except.ok.injEq] at h
      subst h; rfl
  · intro res h
    simp only [propagate_polychromeASP_inv] at h
    by_cases hs : p.fftshiftSwitch = true
    · simp only [propagate_polychromeASP, make_transferfunction_polychrome_ASP,
        hs, reduceIte, Except.map] at h
      exact Except.noConfusion h
    · simp only [propagate_polychromeASP, make_transferfunction_polychrome_ASP,
        hs, Bool.false_eq_true, if_false, reduceIte, Except.map,
        Except.ok.injEq] at h
      subst h; rfl
  · intro res h
    by_cases hs : p.fftshiftSwitch = true
    · simp only [propagate_scaledASP, make_transferfunction_scaledASP, hs,
        reduceIte, Except.map] at h
      exact Except.noConfusion h
    · by_cases hl : 1 < nl
      · simp only [propagate_scaledASP, make_transferfunction_scaledASP, hs, hl,
          Bool.false_eq_true, if_false, if_true, reduceIte, Except.map] at h
        exact Except.noConfusion h
      · simp only [propagate_scaledASP, make_transferfunction_scaledASP, hs, hl,
          Bool.false_eq_true, if_false, if_true, reduceIte, Except.map,
          Except.ok.injEq] at h
        rcases inv with _ | _ <;>
          simp only [Bool.false_eq_true, if_false, if_true, reduceIte] at h <;>
          (subst h; rfl)
  · intro res h
    simp only [propagate_scaledASP_inv] at h
    by_cases hs : p.fftshiftSwitch = true
    · simp only [propagate_scaledASP, make_transferfunction_scaledASP, hs,
        reduceIte, Except.map] at h
      exact Except.noConfusion h
    · by_cases hl : 1 < nl
      · simp only [propagate_scaledASP, make_transferfunction_scaledASP, hs, hl,
          Bool.false_eq_true, if_false, if_true, reduceIte, Except.map] at h
        exact Except.noConfusion h
      · simp only [propagate_scaledASP, make_transferfunction_scaledASP, hs, hl,
          Bool.false_eq_true, if_false, if_true, reduceIte, Except.map,
          Except.ok.injEq] at h
        subst h; rfl
  · intro res h
    by_cases hs : p.fftshiftSwitch = true
    · simp only [propagate_scaledPolychromeASP,
        make_transferfunction_scaledPolychromeASP, hs, reduceIte, Except.map] at h
      exact Except.noConfusion h
    · simp only [propagate_scaledPolychromeASP,
        make_transferfunction_scaledPolychromeASP, hs, Bool.false_eq_true,
        if_false, reduceIte, Except.map, Except.ok.injEq] at h
      rcases inv with _ | _ <;>
        simp only [Bool.false_eq_true, if_false, if_true, reduceIte] at h <;>
        (subst h; rfl)
  · intro res h
    simp only [propagate_scaledPolychromeASP_inv] at h
    by_cases hs : p.fftshiftSwitch = true
    · simp only [propagate_scaledPolychromeASP,
        make_transferfunction_scaledPolychromeASP, hs, reduceIte, Except.map] at h
      exact Except.noConfusion h
    · simp only [propagate_scaledPolychromeASP,
        make_transferfunction_scaledPolychromeASP, hs, Bool.false_eq_true,
        if_false, reduceIte, Except.map, Except.ok.injEq] at h
      subst h; rfl
  · intro res h
    by_cases hs : p.fftshiftSwitch = true
    · simp only [propagate_twoStepPolychrome, make_cache_twoStepPolychrome, hs,
        reduceIte, Except.map] at h
      exact Except.noConfusion h
    · simp only [propagate_twoStepPolychrome, make_cache_twoStepPolychrome, hs,
        Bool.false_eq_true, if_false, reduceIte, Except.map,
        Except.ok.injEq] at h
      rcases inv with _ | _ <;>
        simp only [Bool.false_eq_true, if_false, if_true, reduceIte] at h <;>
        (subst h; rfl)
  · intro res h Fp hF Gp hG
    simp only [propagate_twoStepPolychrome_inv] at h
    rw [hF, hG] at h
    simp only [Except.bind, Except.map, Except.ok.injEq] at h
    subst h
    exact ⟨rfl, rfl⟩
/-- Witness for C3: the Fraunhofer forward propagator applied to a concrete
1×1 zero field returns `esw` as its first component. -/
theorem C3_first_component_witness :
    propagate_fraunhofer (0 : PField 1 1) pFraunhofer rTriv none =
      .ok (rTriv.esw, fft2cF 0 pFraunhofer.fftshiftSwitch) ∧
    (rTriv.esw, fft2cF (0 : PField 1 1) pFraunhofer.fftshiftSwitch).1 = rTriv.esw :=
  ⟨rfl, (C3_first_component pFraunhofer rTriv 0 none false).1
    (rTriv.esw, fft2cF 0 pFraunhofer.fftshiftSwitch) rfl⟩

/-- C3, counterexample to the claim as stated: `propagate_twoStepPolychrome_inv`
on a state with `esw = 1` (constant ones) and `ESW = 0` returns the zero field
(the inverse transform of `ESW`) as its first component, not `esw`. -/
theorem C3_counterexample :
    (propagate_twoStepPolychrome_inv (0 : PField 1 1) pTwoStep rTriv none).map
      Prod.fst ≠ Except.ok rTriv.esw := by
  intro h
  have hred : (propagate_twoStepPolychrome_inv (0 : PField 1 1) pTwoStep rTriv none).map
      Prod.fst = Except.ok (ifft2cF (fft2cF (rTriv.ESW *
        star (bcast (make_quad_phase 1 rTriv.zo (rTriv.spectralDensity 0) rTriv.dxp)))
        false * star (fun l : Fin 1 => aspwKernel 1
          (rTriv.zo * (1 - rTriv.spectralDensity 0 / rTriv.spectralDensity l.val))
          (rTriv.spectralDensity l.val) rTriv.Lp)) false) := rfl
  rw [hred] at h
  have hESW : rTriv.ESW * star (bcast (make_quad_phase 1 rTriv.zo
      (rTriv.spectralDensity 0) rTriv.dxp)) = 0 := zero_mul _
  rw [hESW] at h
  have hfz : fft2cF (0 : PField 1 1) false = 0 := funext fun _ => fft2c_zero false
  rw [hfz, zero_mul] at h
  have hiz : ifft2cF (0 : PField 1 1) false = 0 := funext fun _ => ifft2c_zero false
  rw [hiz] at h
  have h0 : (0 : PField 1 1) = rTriv.esw := by
    injection h
  have h00 : (0 : ℂ) = 1 := congrFun (congrFun (congrFun h0 0) 0) 0
  exact zero_ne_one h00

/-- Helper: an explicit `error` value is a configuration error. -/
theorem isConfigError_of_error {α : Type} (msg : String) :
    isConfigError (Except.error msg : Except String α) := ⟨msg, rfl⟩

/-- C4 (evaluation of the code at the divergence).  The `scaledPolychromeASP`
forward transform matches the claimed formula
`ifft2c(fft2c(fields·Q1)·Q2)`, but its inverse computes
`ifft2c(fft2c(fields)·conj(Q1))·conj(Q2)` — the conjugated `Q1` is applied in
the frequency domain and `conj(Q2)` outside, the mirror image of the claimed
`conj(Q1)·ifft2c(fft2c(fields)·conj(Q2))` (which is what `propagate_scaledASP`
and the standalone `scaledASPinv` compute).  The factors are moreover built
with `dxp` where the factory expects `dxd`. -/
theorem C4_scaledPolychromeASP_inverse_swapped [NeZero n] (fields : PField nl n)
    (p : Params) (r : Reconstruction nl n) (zopt : Option ℝ) :
    (propagate_scaledPolychromeASP fields p r false zopt =
      if p.fftshiftSwitch then
        .error "scaledPolychromeASP propagatorType works only with fftshiftSwitch = False!"
      else
        .ok (r.esw, ifft2cF (fft2cF (fields * fun l =>
            scaledASP_Q1 n (zopt.getD r.zo) (r.spectralDensity l.val) r.dxo r.dxp)
          false * fun l =>
            scaledASP_Q2 n (zopt.getD r.zo) (r.spectralDensity l.val) r.dxo r.dxp)
          false)) ∧
    (propagate_scaledPolychromeASP fields p r true zopt =
      if p.fftshiftSwitch then
        .error "scaledPolychromeASP propagatorType works only with fftshiftSwitch = False!"
      else
        .ok (r.esw, ifft2cF (fft2cF fields false * star fun l =>
            scaledASP_Q1 n (zopt.getD r.zo) (r.spectralDensity l.val) r.dxo r.dxp)
          false * star fun l =>
            scaledASP_Q2 n (zopt.getD r.zo) (r.spectralDensity l.val) r.dxo r.dxp)) := by
  constructor
  · by_cases hs : p.fftshiftSwitch = true
    · rw [propagate_scaledPolychromeASP, make_transferfunction_scaledPolychromeASP,
        if_pos hs, if_pos hs]
      rfl
    · rw [propagate_scaledPolychromeASP, make_transferfunction_scaledPolychromeASP,
        if_neg hs, if_neg hs]
      rfl
  · by_cases hs : p.fftshiftSwitch = true
    · rw [propagate_scaledPolychromeASP, make_transferfunction_scaledPolychromeASP,
        if_pos hs, if_pos hs]
      rfl
    · rw [propagate_scaledPolychromeASP, make_transferfunction_scaledPolychromeASP,
        if_neg hs, if_neg hs]
      rfl

/-- Witness for C4: the forward and the swapped inverse formulas at a
concrete 1×1 state. -/
theorem C4_scaledPolychromeASP_inverse_swapped_witness :
    (propagate_scaledPolychromeASP (0 : PField 1 1) pFraunhofer rTriv false none =
      if pFraunhofer.fftshiftSwitch then
        .error "scaledPolychromeASP propagatorType works only with fftshiftSwitch = False!"
      else
        .ok (rTriv.esw, ifft2cF (fft2cF ((0 : PField 1 1) * fun l =>
            scaledASP_Q1 1 ((none : Option ℝ).getD rTriv.zo)
              (rTriv.spectralDensity l.val) rTriv.dxo rTriv.dxp)
          false * fun l =>
            scaledASP_Q2 1 ((none : Option ℝ).getD rTriv.zo)
              (rTriv.spectralDensity l.val) rTriv.dxo rTriv.dxp)
          false)) ∧
    (propagate_scaledPolychromeASP (0 : PField 1 1) pFraunhofer rTriv true none =
      if pFraunhofer.fftshiftSwitch then
        .error "scaledPolychromeASP propagatorType works only with fftshiftSwitch = False!"
      else
        .ok (rTriv.esw, ifft2cF (fft2cF (0 : PField 1 1) false * star fun l =>
            scaledASP_Q1 1 ((none : Option ℝ).getD rTriv.zo)
              (rTriv.spectralDensity l.val) rTriv.dxo rTriv.dxp)
          false * star fun l =>
            scaledASP_Q2 1 ((none : Option ℝ).getD rTriv.zo)
              (rTriv.spectralDensity l.val) rTriv.dxo rTriv.dxp)) :=
  C4_scaledPolychromeASP_inverse_swapped 0 pFraunhofer rTriv none

/-- C5.  With the shift convention enabled, every angular-spectrum-family
propagator (forward and inverse) surfaces a configuration error before any
transform is applied; and the single-wavelength models `ASP` and `scaledASP`
surface a configuration error whenever more than one spectral entry is
configured. -/
theorem C5_validity_guards [NeZero n] (p : Params) (r : Reconstruction nl n)
    (u : PField nl n) (zopt : Option ℝ) (inv : Bool) :
    (p.fftshiftSwitch = true →
      isConfigError (propagate_ASP u p r inv zopt) ∧
      isConfigError (propagate_ASP_inv u p r zopt) ∧
      isConfigError (propagate_polychromeASP u p r inv zopt) ∧
      isConfigError (propagate_polychromeASP_inv u p r zopt) ∧
      isConfigError (propagate_scaledASP u p r inv zopt) ∧
      isConfigError (propagate_scaledASP_inv u p r zopt) ∧
      isConfigError (propagate_scaledPolychromeASP u p r inv zopt) ∧
      isConfigError (propagate_scaledPolychromeASP_inv u p r zopt) ∧
      isConfigError (propagate_twoStepPolychrome u p r inv zopt) ∧
      isConfigError (propagate_twoStepPolychrome_inv u p r zopt)) ∧
    (1 < nl →
      isConfigError (propagate_ASP u p r inv zopt) ∧
      isConfigError (propagate_ASP_inv u p r zopt) ∧
      isConfigError (propagate_scaledASP u p r inv zopt) ∧
      isConfigError (propagate_scaledASP_inv u p r zopt)) := by
  constructor
  · intro hs
    refine ⟨?_, ?_, ?_, ?_, ?_, ?_, ?_, ?_, ?_, ?_⟩
    · rw [propagate_ASP, if_pos hs]
      exact isConfigError_of_error _
    · rw [propagate_ASP_inv, propagate_ASP, if_pos hs]
      exact isConfigError_of_error _
    · rw [propagate_polychromeASP, make_transferfunction_polychrome_ASP, if_pos hs]
      exact isConfigError_of_error _
    · rw [propagate_polychromeASP_inv, propagate_polychromeASP,
        make_transferfunction_polychrome_ASP, if_pos hs]
      exact isConfigError_of_error _
    · rw [propagate_scaledASP, make_transferfunction_scaledASP, if_pos hs]
      exact isConfigError_of_error _
    · rw [propagate_scaledASP_inv, propagate_scaledASP,
        make_transferfunction_scaledASP, if_pos hs]
      exact isConfigError_of_error _
    · rw [propagate_scaledPolychromeASP,
        make_transferfunction_scaledPolychromeASP, if_pos hs]
      exact isConfigError_of_error _
    · rw [propagate_scaledPolychromeASP_inv, propagate_scaledPolychromeASP,
        make_transferfunction_scaledPolychromeASP, if_pos hs]
      exact isConfigError_of_error _
    · rw [propagate_twoStepPolychrome, make_cache_twoStepPolychrome, if_pos hs]
      exact isConfigError_of_error _
    · rw [propagate_twoStepPolychrome_inv, propagate_twoStepPolychrome,
        make_cache_twoStepPolychrome, if_pos hs]
      exact isConfigError_of_error _
  · intro hl
    refine ⟨?_, ?_, ?_, ?_⟩
    · by_cases hs : p.fftshiftSwitch = true
      · rw [propagate_ASP, if_pos hs]
        exact isConfigError_of_error _
      · rw [propagate_ASP, if_neg hs, if_pos hl]
        exact isConfigError_of_error _
    · by_cases hs : p.fftshiftSwitch = true
      · rw [propagate_ASP_inv, propagate_ASP, if_pos hs]
        exact isConfigError_of_error _
      · rw [propagate_ASP_inv, propagate_ASP, if_neg hs, if_pos hl]
        exact isConfigError_of_error _
    · by_cases hs : p.fftshiftSwitch = true
      · rw [propagate_scaledASP, make_transferfunction_scaledASP, if_pos hs]
        exact isConfigError_of_error _
      · rw [propagate_scaledASP, make_transferfunction_scaledASP, if_neg hs,
          if_pos hl]
        exact isConfigError_of_error _
    · by_cases hs : p.fftshiftSwitch = true
      · rw [propagate_scaledASP_inv, propagate_scaledASP,
          make_transferfunction_scaledASP, if_pos hs]
        exact isConfigError_of_error _
      · rw [propagate_scaledASP_inv, propagate_scaledASP,
          make_transferfunction_scaledASP, if_neg hs, if_pos hl]
        exact isConfigError_of_error _

/-- Witness for C5: with the shift convention enabled the `ASP` propagator
errors on a concrete two-wavelength 1×1 state, and with two spectral entries
it errors even with the shift convention off. -/
theorem C5_validity_guards_witness :
    pShift.fftshiftSwitch = true ∧ (1 : ℕ) < 2 ∧
    isConfigError (propagate_ASP (0 : PField 2 1) pShift rTwoLambda false none) ∧
    isConfigError (propagate_ASP (0 : PField 2 1) pASP rTwoLambda false none) :=
  ⟨rfl, by norm_num,
    ((C5_validity_guards pShift rTwoLambda 0 none false).1 rfl).1,
    ((C5_validity_guards pASP rTwoLambda 0 none false).2 (by norm_num)).1⟩

/-- C7.  An unsupported model name resolves to `none` in both lookup tables
and makes both directional adapters surface a configuration error, while each
of the seven supported names resolves to its matching forward and inverse
implementation. -/
theorem C7_dispatch [NeZero n] (p : Params) (r : Reconstruction nl n)
    (u : PField nl n) :
    (∀ s : String, s ∉ supportedPropagators →
      @forward_lookup_dictionary n nl _ s = none ∧
      @reverse_lookup_dictionary n nl _ s = none) ∧
    (p.propagatorType ∉ supportedPropagators →
      isConfigError (object2detector (some u) p r) ∧
      isConfigError (detector2object (some u) p r)) ∧
    @forward_lookup_dictionary n nl _ "Fraunhofer" =
      some (fun f p r => propagate_fraunhofer f p r) ∧
    @forward_lookup_dictionary n nl _ "Fresnel" =
      some (fun f p r => propagate_fresnel f p r) ∧
    @forward_lookup_dictionary n nl _ "ASP" =
      some (fun f p r => propagate_ASP f p r) ∧
    @forward_lookup_dictionary n nl _ "polychromeASP" =
      some (fun f p r => propagate_polychromeASP f p r) ∧
    @forward_lookup_dictionary n nl _ "scaledASP" =
      some (fun f p r => propagate_scaledASP f p r) ∧
    @forward_lookup_dictionary n nl _ "scaledPolychromeASP" =
      some (fun f p r => propagate_scaledPolychromeASP f p r) ∧
    @forward_lookup_dictionary n nl _ "twoStepPolychrome" =
      some (fun f p r => propagate_twoStepPolychrome f p r) ∧
    @reverse_lookup_dictionary n nl _ "Fraunhofer" =
      some (fun f p r => propagate_fraunhofer_inv f p r) ∧
    @reverse_lookup_dictionary n nl _ "Fresnel" =
      some (fun f p r => propagate_fresnel_inv f p r) ∧
    @reverse_lookup_dictionary n nl _ "ASP" =
      some (fun f p r => propagate_ASP_inv f p r) ∧
    @reverse_lookup_dictionary n nl _ "polychromeASP" =
      some (fun f p r => propagate_polychromeASP_inv f p r) ∧
    @reverse_lookup_dictionary n nl _ "scaledASP" =
      some (fun f p r => propagate_scaledASP_inv f p r) ∧
    @reverse_lookup_dictionary n nl _ "scaledPolychromeASP" =
      some (fun f p r => propagate_scaledPolychromeASP_inv f p r) ∧
    @reverse_lookup_dictionary n nl _ "twoStepPolychrome" =
      some (fun f p r => propagate_twoStepPolychrome_inv f p r) := by
  have hlook : ∀ s : String, s ∉ supportedPropagators →
      @forward_lookup_dictionary n nl _ s = none ∧
      @reverse_lookup_dictionary n nl _ s = none := by
    intro s hs
    simp only [supportedPropagators, List.mem_cons, List.not_mem_nil, or_false,
      not_or] at hs
    obtain ⟨h1, h2, h3, h4, h5, h6, h7⟩ := hs
    constructor
    · simp only [forward_lookup_dictionary, h1, h2, h3, h4, h5, h6, h7, if_false]
    · simp only [reverse_lookup_dictionary, h1, h2, h3, h4, h5, h6, h7, if_false]
  refine ⟨hlook, ?_, rfl, rfl, rfl, rfl, rfl, rfl, rfl, rfl, rfl, rfl, rfl, rfl,
    rfl, rfl⟩
  intro hp
  constructor
  · rw [object2detector, (hlook _ hp).1]
    exact isConfigError_of_error _
  · rw [detector2object, (hlook _ hp).2]
    exact isConfigError_of_error _

/-- Witness for C7: the unsupported name `"banana"` makes both adapters fail
on a concrete 1×1 state. -/
theorem C7_dispatch_witness :
    "banana" ∉ supportedPropagators ∧
    isConfigError (object2detector (some (0 : PField 1 1)) pBogus rTriv) ∧
    isConfigError (detector2object (some (0 : PField 1 1)) pBogus rTriv) := by
  have hmem : "banana" ∉ supportedPropagators := by decide
  exact ⟨hmem, ((C7_dispatch pBogus rTriv 0).2.1 hmem).1,
    ((C7_dispatch pBogus rTriv 0).2.1 hmem).2⟩

/-- C10.  With no explicit field, `object2detector` substitutes
`reconstruction.esw` (lower case) and `detector2object` substitutes
`reconstruction.ESW` (upper case); and since `object2detector` resolves the
propagator before substituting, an unsupported name fails even with no field
supplied. -/
theorem C10_default_fields [NeZero n] (p : Params) (r : Reconstruction nl n) :
    (∀ m, @forward_lookup_dictionary n nl _ p.propagatorType = some m →
      object2detector none p r = m r.esw p r) ∧
    (∀ m, @reverse_lookup_dictionary n nl _ p.propagatorType = some m →
      detector2object none p r = m r.ESW p r) ∧
    (@forward_lookup_dictionary n nl _ p.propagatorType = none →
      object2detector none p r =
        .error "propagatorType is not in forward_lookup_dictionary") := by
  refine ⟨?_, ?_, ?_⟩
  · intro m hm
    rw [object2detector, hm]
    rfl
  · intro m hm
    rw [detector2object, hm]
    rfl
  · intro hm
    rw [object2detector, hm]

/-- Witness for C10: under `Fraunhofer` the adapters default to `esw`
respectively `ESW` of a concrete 1×1 state, and under the unsupported name
`"banana"` the forward adapter fails with no field supplied. -/
theorem C10_default_fields_witness :
    object2detector none pFraunhofer rTriv =
      propagate_fraunhofer rTriv.esw pFraunhofer rTriv ∧
    detector2object none pFraunhofer rTriv =
      propagate_fraunhofer_inv rTriv.ESW pFraunhofer rTriv ∧
    @object2detector 1 1 _ none pBogus rTriv =
      .error "propagatorType is not in forward_lookup_dictionary" :=
  ⟨(C10_default_fields pFraunhofer rTriv).1 _ rfl,
   (C10_default_fields pFraunhofer rTriv).2.1 _ rfl,
   (C10_default_fields pBogus rTriv).2.2 rfl⟩

/-- The updated cache state always starts with the requested key and the
returned value. -/
theorem lruGet_head_key {κ ν : Type} [DecidableEq κ] (cap : ℕ) (f : κ → ν)
    (c : List (κ × ν)) (k : κ) (hcap : 0 < cap) :
    ∃ rest, (lruGet cap f c k).2.1 = (k, (lruGet cap f c k).1) :: rest := by
  unfold lruGet
  cases hfind : c.find? (fun e => decide (e.1 = k)) with
  | none =>
    obtain ⟨m, rfl⟩ : ∃ m, cap = m + 1 :=
      ⟨cap - 1, (Nat.succ_pred_eq_of_pos hcap).symm⟩
    exact ⟨c.take m, by rw [List.take_succ_cons]⟩
  | some e =>
    have hpred' := List.find?_some hfind
    have hk : e.1 = k := of_decide_eq_true hpred'
    subst hk
    exact ⟨_, rfl⟩

/-- A request whose key sits at the head of the cache is a hit returning the
stored value. -/
theorem lruGet_hit_of_head {κ ν : Type} [DecidableEq κ] (cap : ℕ) (f : κ → ν)
    (c : List (κ × ν)) (k : κ) (v : ν) (rest : List (κ × ν))
    (h : c = (k, v) :: rest) :
    (lruGet cap f c k).1 = v ∧ (lruGet cap f c k).2.2 = true := by
  subst h
  unfold lruGet
  rw [List.find?_cons_of_pos _ (by simp)]
  exact ⟨rfl, rfl⟩

/-- C8.  Requesting a kernel twice with the identical parameter tuple
returns the stored value (the same cached object, not a recomputation): the
second request is a hit.  In particular, for the spec's concrete key
`(z=0.01, λ=500e-9, Np=64, dxp=1e-5, device=CPU)` starting from the empty
cache, the first request is a miss that computes the kernel and the second
returns exactly that cached kernel. -/
theorem C8_cache_hit (c : List (QKey × SGrid)) (k : QKey) :
    (lruGet cache_size make_quad_phase_entry
      (lruGet cache_size make_quad_phase_entry c k).2.1 k).1 =
      (lruGet cache_size make_quad_phase_entry c k).1 ∧
    (lruGet cache_size make_quad_phase_entry
      (lruGet cache_size make_quad_phase_entry c k).2.1 k).2.2 = true ∧
    (lruGet cache_size make_quad_phase_entry [] qkey64).2.2 = false ∧
    (lruGet cache_size make_quad_phase_entry
      (lruGet cache_size make_quad_phase_entry [] qkey64).2.1 qkey64).1 =
      make_quad_phase_entry qkey64 := by
  have hgen : ∀ (c : List (QKey × SGrid)) (k : QKey),
      (lruGet cache_size make_quad_phase_entry
        (lruGet cache_size make_quad_phase_entry c k).2.1 k).1 =
        (lruGet cache_size make_quad_phase_entry c k).1 ∧
      (lruGet cache_size make_quad_phase_entry
        (lruGet cache_size make_quad_phase_entry c k).2.1 k).2.2 = true := by
    intro c k
    obtain ⟨rest, hhead⟩ :=
      lruGet_head_key cache_size make_quad_phase_entry c k (by decide)
    exact lruGet_hit_of_head cache_size make_quad_phase_entry _ k _ rest hhead
  refine ⟨(hgen c k).1, (hgen c k).2, rfl, ?_⟩
  have h1 : (lruGet cache_size make_quad_phase_entry [] qkey64).1 =
      make_quad_phase_entry qkey64 := rfl
  rw [(hgen [] qkey64).1, h1]

/-- The cache never grows beyond its capacity in one step. -/
theorem lruGet_state_length {κ ν : Type} [DecidableEq κ] (cap : ℕ) (f : κ → ν)
    (c : List (κ × ν)) (k : κ) (hc : c.length ≤ cap) :
    ((lruGet cap f c k).2.1).length ≤ cap := by
  unfold lruGet
  cases hfind : c.find? (fun e => decide (e.1 = k)) with
  | none => exact List.length_take_le _ _
  | some e =>
    have hmem : e ∈ c := List.mem_of_find?_eq_some hfind
    have hpred' := List.find?_some hfind
    have hne : 0 < c.length := List.length_pos_of_mem hmem
    have hlen : (c.eraseP (fun e' => decide (e'.1 = k))).length = c.length - 1 :=
      List.length_eraseP_of_mem hmem hpred'
    simp only [List.length_cons, hlen]
    omega

/-- C9.  After any sequence of kernel requests starting from the empty cache
the cache holds at most `cache_size = 10` entries; and a fresh key inserted
into a full cache evicts exactly the least-recently-used entry (the last in
recency order), never any other. -/
theorem C9_lru_eviction :
    (∀ ks : List QKey,
      (lruRun cache_size make_quad_phase_entry ks).length ≤ cache_size) ∧
    (∀ (c : List (QKey × SGrid)) (k : QKey), c.length = cache_size →
      (∀ e ∈ c, e.1 ≠ k) →
      (lruGet cache_size make_quad_phase_entry c k).2.1 =
        (k, make_quad_phase_entry k) :: c.dropLast) := by
  constructor
  · have hrun : ∀ (ks : List QKey) (c : List (QKey × SGrid)),
        c.length ≤ cache_size →
        (ks.foldl (fun c k =>
          (lruGet cache_size make_quad_phase_entry c k).2.1) c).length ≤
          cache_size := by
      intro ks
      induction ks with
      | nil => intro c hc; exact hc
      | cons k ks ih =>
        intro c hc
        exact ih _ (lruGet_state_length _ _ _ _ hc)
    intro ks
    exact hrun ks [] (by norm_num)
  · intro c k hlen hfresh
    have hfind : c.find? (fun e => decide (e.1 = k)) = none := by
      rw [List.find?_eq_none]
      intro a ha
      simp only [decide_eq_true_eq]
      exact hfresh a ha
    unfold lruGet
    rw [hfind]
    simp only
    rw [show cache_size = 9 + 1 from rfl, List.take_succ_cons,
      List.dropLast_eq_take, hlen]
    rfl

/-- Witness for C9: inserting an eleventh distinct key into the full
ten-entry cache evicts exactly its last (least-recently-used) entry. -/
theorem C9_lru_eviction_witness :
    fullCache.length = cache_size ∧ (∀ e ∈ fullCache, e.1 ≠ keyEleven) ∧
    (lruGet cache_size make_quad_phase_entry fullCache keyEleven).2.1 =
      (keyEleven, make_quad_phase_entry keyEleven) :: fullCache.dropLast := by
  have h1 : fullCache.length = cache_size := by decide
  have h2 : ∀ e ∈ fullCache, e.1 ≠ keyEleven := by decide
  exact ⟨h1, h2, C9_lru_eviction.2 fullCache keyEleven h1 h2⟩

end
